import Mathlib

/-
Verification of the content-classification, rule-merging, code-analysis and
diff-summarization core of the `algr_simple` repository, as a shallow
embedding in Lean.  Python strings are modeled as `List Char`; Python regular
expressions are modeled by a small derivative-based matcher (`Re`) plus
bespoke scanners for the few constructs (word boundaries, anchors) the
patterns use.  `re.search` is only ever used for its truth value in the
source, so existence-of-a-match semantics is faithful.  Python `\w` and `\s`
are modeled over ASCII (every concrete string in the properties below is
ASCII).
-/

set_option maxRecDepth 4000

/-- Python strings, modeled as lists of characters. -/
abbrev Str := List Char

/-- Python regex class `\w` (ASCII approximation). -/
def pyIsWordChar (c : Char) : Bool := c.isAlphanum || c == '_'

/-- Python regex class `\s` / `str.isspace` (ASCII approximation):
space, tab, newline, carriage return, vertical tab, form feed. -/
def pyIsSpace (c : Char) : Bool :=
  c == ' ' || c == '\t' || c == '\n' || c == '\r' || c == '\x0b' || c == '\x0c'

/-- Python `str.lower()` (ASCII approximation). -/
def lowerStr (s : Str) : Str := s.map Char.toLower

/-- Python `str.strip()`: whitespace removed from both ends. -/
def stripStr (s : Str) : Str :=
  ((s.dropWhile pyIsSpace).reverse.dropWhile pyIsSpace).reverse

/-- Python `str.lstrip()`. -/
def lstripStr (s : Str) : Str := s.dropWhile pyIsSpace

theorem length_dropWhile_le' (p : Char → Bool) (s : Str) :
    (s.dropWhile p).length ≤ s.length := by
  induction s with
  | nil => simp [List.dropWhile]
  | cons c cs ih =>
    simp only [List.dropWhile]
    cases p c
    · simp
    · simp; omega

/-- Tokenizer worker for `splitTokens`: `acc` holds the reversed characters
of the token currently being read. -/
def splitTokensAux : Str → Str → List Str
  | [], acc => if acc.isEmpty then [] else [acc.reverse]
  | c :: cs, acc =>
    if pyIsSpace c then
      if acc.isEmpty then splitTokensAux cs []
      else acc.reverse :: splitTokensAux cs []
    else splitTokensAux cs (c :: acc)

/-- Python `str.split()` with no separator: tokens are maximal runs of
non-whitespace; leading/trailing whitespace ignored. -/
def splitTokens (s : Str) : List Str := splitTokensAux s []

/-- Python `str.split(sep)` for a one-character separator: note that the
empty string splits to `[""]`. -/
def splitOnChar (sep : Char) : Str → List Str
  | [] => [[]]
  | c :: cs =>
    match splitOnChar sep cs with
    | [] => [[]]
    | h :: t => if c == sep then [] :: h :: t else (c :: h) :: t

/-- Python `str.splitlines()`: splits at `\n`, `\r\n` or `\r`, producing no
trailing empty line. -/
def splitlinesPy : Str → List Str
  | [] => []
  | '\r' :: '\n' :: tl => [] :: splitlinesPy tl
  | '\r' :: tl => [] :: splitlinesPy tl
  | '\n' :: tl => [] :: splitlinesPy tl
  | c :: cs =>
    match splitlinesPy cs with
    | [] => [[c]]
    | h :: t => (c :: h) :: t

/-- Whether `sub` occurs as a contiguous substring of `s` (`sub in s`). -/
def containsSub (sub : Str) (s : Str) : Bool :=
  (List.range (s.length + 1)).any fun i => sub.isPrefixOf (s.drop i)

/-- Worker for `countOcc`: `skip` counts characters still to be skipped over
because they belong to the occurrence counted last (matches do not
overlap). -/
def countOccAux (sub : Str) : Str → Nat → Nat
  | [], _ => 0
  | _ :: cs, skip + 1 => countOccAux sub cs skip
  | c :: cs, 0 =>
    if !sub.isEmpty && sub.isPrefixOf (c :: cs) then
      1 + countOccAux sub cs (sub.length - 1)
    else countOccAux sub cs 0

/-- Python `str.count(sub)`: number of non-overlapping occurrences, scanning
left to right (for non-empty `sub`). -/
def countOcc (sub : Str) (s : Str) : Nat := countOccAux sub s 0

/-- A tiny regex core: character classes, concatenation, alternation, star.
Matching is by Brzozowski derivatives; only the existence of a match is ever
needed (the source uses `re.search` solely for its truth value). -/
inductive Re : Type where
  | eps : Re
  | cls (p : Char → Bool) : Re
  | cat (r1 r2 : Re) : Re
  | alt (r1 r2 : Re) : Re
  | star (r : Re) : Re

/-- Whether the regex accepts the empty string. -/
def Re.nullable : Re → Bool
  | .eps => true
  | .cls _ => false
  | .cat a b => a.nullable && b.nullable
  | .alt a b => a.nullable || b.nullable
  | .star _ => true

/-- Brzozowski derivative with respect to one character. -/
def Re.deriv : Re → Char → Re
  | .eps, _ => .cls fun _ => false
  | .cls p, c => if p c then .eps else .cls fun _ => false
  | .cat a b, c =>
    if a.nullable then .alt (.cat (a.deriv c) b) (b.deriv c)
    else .cat (a.deriv c) b
  | .alt a b, c => .alt (a.deriv c) (b.deriv c)
  | .star r, c => .cat (r.deriv c) (.star r)

/-- Does some prefix of `s` match `r`, with the remaining suffix satisfying
the continuation `k`?  (`k` models a trailing anchor or lookahead.) -/
def reMatchCont : Re → (Str → Bool) → Str → Bool
  | r, k, [] => r.nullable && k []
  | r, k, c :: cs => (r.nullable && k (c :: cs)) || reMatchCont (r.deriv c) k cs

/-- Does some prefix of `s` match `r`? -/
def reAccept (r : Re) (s : Str) : Bool := reMatchCont r (fun _ => true) s

/-- `re.search` with a trailing continuation: does `r` match starting at some
position of `s`, with the rest satisfying `k`? -/
def reSearchCont (r : Re) (k : Str → Bool) : Str → Bool
  | [] => reMatchCont r k []
  | c :: cs => reMatchCont r k (c :: cs) || reSearchCont r k cs

/-- Plain `re.search`: does `r` match somewhere in `s`? -/
def reSearch (r : Re) (s : Str) : Bool := reSearchCont r (fun _ => true) s

/-- Literal string regex. -/
def Re.lit (w : Str) : Re :=
  w.foldr (fun c acc => .cat (.cls fun d => d == c) acc) .eps

/-- Single literal character. -/
def Re.chr (c : Char) : Re := .cls fun d => d == c

/-- `r+`. -/
def Re.plus (r : Re) : Re := .cat r (.star r)

/-- `[\s\S]` (any character, as used with and without DOTALL for `.*?`
spans that may cross lines). -/
def anyC : Re := .cls fun _ => true

/-- `.` without DOTALL: any character except newline. -/
def dotC : Re := .cls fun c => c != '\n'

/-- `\w`. -/
def wdC : Re := .cls pyIsWordChar

/-- `\s`. -/
def wsC : Re := .cls pyIsSpace

/-- `\d`. -/
def digC : Re := .cls Char.isDigit

/-- Is the character at index `i` a word character? (`false` out of range.) -/
def wordAtPos (s : Str) (i : Nat) : Bool :=
  match s[i]? with
  | some c => pyIsWordChar c
  | none => false

/-- Python regex `\b` at position `i` of `s`. -/
def boundaryAt (s : Str) (i : Nat) : Bool :=
  (if i == 0 then false else wordAtPos s (i - 1)) != wordAtPos s i

/-- `re.search` for `\b(w1|w2|...)\b REST`: some keyword of `kws` occurs with
word boundaries on both sides, followed by a match of `rest`. -/
def searchKwThen (kws : List Str) (rest : Re) (s : Str) : Bool :=
  (List.range (s.length + 1)).any fun i =>
    kws.any fun w =>
      boundaryAt s i && w.isPrefixOf (s.drop i) && boundaryAt s (i + w.length) &&
        reAccept rest (s.drop (i + w.length))

/-- `re.search` for `\b(w1|w2|...)\b`. -/
def searchWordAlt (kws : List Str) (s : Str) : Bool := searchKwThen kws .eps s

/-- `re.search` for `^(w1|w2|...)\b` without MULTILINE: anchored at the very
start of the string. -/
def searchStartWordAlt (kws : List Str) (s : Str) : Bool :=
  kws.any fun w => w.isPrefixOf s && boundaryAt s w.length

/-- `re.search` with MULTILINE for a pattern anchored by `^`: a match of `r`
starting at the beginning of the string or right after a newline. -/
def lineStartsAccept (r : Re) (s : Str) : Bool :=
  (List.range (s.length + 1)).any fun i =>
    (i == 0 || s[i-1]? == some '\n') && reAccept r (s.drop i)

namespace Models

/-- The four conversation patterns of `_is_conversational`
(src/config/models.py): greetings, a trailing question mark (`\?$`),
politeness words, and an opening interrogative word. -/
def conversation_match (s : Str) : Bool :=
  searchWordAlt ["ciao".data, "salve".data, "hey".data, "hi".data] s ||
  ("?".data.isSuffixOf s || "?\n".data.isSuffixOf s) ||
  searchWordAlt ["grazie".data, "prego".data, "per favore".data] s ||
  searchStartWordAlt
    ["come".data, "cosa".data, "quando".data, "dove".data, "perché".data, "chi".data] s

/-- The three technical-indicator patterns of `_is_conversational`:
declaration keywords, a fenced-code marker, analysis verbs. -/
def technical_match (s : Str) : Bool :=
  searchWordAlt
    ["function".data, "class".data, "def".data, "var".data, "let".data, "const".data] s ||
  containsSub "```".data s ||
  searchWordAlt ["analizza".data, "ottimizza".data, "debug".data] s

/-- `_is_conversational` (src/config/models.py lines 230-259): for short
messages (fewer than 15 tokens) any conversational pattern returns `True`
immediately; otherwise a technical indicator returns `False`; otherwise
`True`. -/
def _is_conversational (content : Str) : Bool :=
  let content_lower := lowerStr content
  if (splitTokens content).length < 15 ∧ conversation_match content_lower = true then
    true
  else if technical_match content_lower = true then false
  else true

/-- Character class `[\w\s,\x7b\x7d]` of the import pattern. -/
def importTail (c : Char) : Bool :=
  pyIsWordChar c || pyIsSpace c || c == ',' || c == '\x7b' || c == '\x7d'

/-- Character class `[\w\s]`. -/
def wordOrSpace (c : Char) : Bool := pyIsWordChar c || pyIsSpace c

/-- Character class `[\w\s="\x27]` of the HTML-tag pattern. -/
def tagInner (c : Char) : Bool :=
  pyIsWordChar c || pyIsSpace c || c == '=' || c == '"' || c == '\''

/-- Pattern `(three backticks)[\w]*\n[\s\S]*?\n(three backticks)`. -/
def code_pattern_block : Re :=
  .cat (.lit "```".data) (.cat (.star wdC) (.cat (.chr '\n')
    (.cat (.star anyC) (.lit "\n```".data))))

/-- Pattern `[\w\s]*\([^\)]*\)\s*\x7b`. -/
def code_pattern_callbrace : Re :=
  .cat (.star (.cls wordOrSpace)) (.cat (.chr '(')
    (.cat (.star (.cls fun c => c != ')')) (.cat (.chr ')')
      (.cat (.star wsC) (.chr '\x7b')))))

/-- Pattern `<[\w\s="\x27]*>.*?</[\w\s]*>`. -/
def code_pattern_html : Re :=
  .cat (.chr '<') (.cat (.star (.cls tagInner)) (.cat (.chr '>')
    (.cat (.star dotC) (.cat (.lit "</".data)
      (.cat (.star (.cls wordOrSpace)) (.chr '>'))))))

/-- `contains_code` (src/config/models.py lines 261-289): the eight code
patterns, searched with MULTILINE. -/
def contains_code (content : Str) : Bool :=
  reSearch code_pattern_block content ||
  searchKwThen
    ["function".data, "class".data, "def".data, "var".data, "let".data, "const".data]
    (.cat (.plus wsC) (.plus wdC)) content ||
  searchKwThen ["import".data, "require".data, "from".data]
    (.cat (.plus wsC) (.plus (.cls importTail))) content ||
  reSearch code_pattern_callbrace content ||
  reSearch (.lit "=>".data) content ||
  searchKwThen ["if".data, "for".data, "while".data, "switch".data]
    (.cat (.star wsC) (.chr '(')) content ||
  reSearch code_pattern_html content ||
  lineStartsAccept (.cat wsC (.cat wsC (.cat (.star wsC) (.plus wdC)))) content

/-- Pattern `\x7b[\s\S]*".*?"[\s\S]*\x7d` (JSON-object shape). -/
def data_pattern_json : Re :=
  .cat (.chr '\x7b') (.cat (.star anyC) (.cat (.chr '"')
    (.cat (.star dotC) (.cat (.chr '"') (.cat (.star anyC) (.chr '\x7d'))))))

/-- Pattern `\[[\s\S]*\x7b.*?\x7d[\s\S]*\]` (JSON-array shape). -/
def data_pattern_array : Re :=
  .cat (.chr '[') (.cat (.star anyC) (.cat (.chr '\x7b')
    (.cat (.star dotC) (.cat (.chr '\x7d') (.cat (.star anyC) (.chr ']'))))))

/-- Pattern `(?:\w+,)\x7b2,\x7d\w+` (the CSV shape, before its `(?:\n|$)`). -/
def data_pattern_csv_core : Re :=
  .cat (.cat (.plus wdC) (.chr ',')) (.cat (.cat (.plus wdC) (.chr ','))
    (.cat (.star (.cat (.plus wdC) (.chr ','))) (.plus wdC)))

/-- Pattern `^\w+:\s*\n(?:\s\x7b2,\x7d-\s+.*\n)+` (YAML shape), after `^`. -/
def data_pattern_yaml : Re :=
  .cat (.plus wdC) (.cat (.chr ':') (.cat (.star wsC) (.cat (.chr '\n')
    (.plus (.cat wsC (.cat wsC (.cat (.star wsC) (.cat (.chr '-')
      (.cat (.plus wsC) (.cat (.star dotC) (.chr '\n')))))))))))

/-- Pattern `\|\s*[\w\s]+\s*\|.*\|` (pipe-delimited table row). -/
def data_pattern_table : Re :=
  .cat (.chr '|') (.cat (.star wsC) (.cat (.plus (.cls wordOrSpace))
    (.cat (.star wsC) (.cat (.chr '|') (.cat (.star dotC) (.chr '|'))))))

/-- `_contains_structured_data` (src/config/models.py lines 291-312). -/
def _contains_structured_data (content : Str) : Bool :=
  reSearch data_pattern_json content ||
  reSearch data_pattern_array content ||
  reSearchCont data_pattern_csv_core
    (fun rem => rem.isEmpty || rem.head? == some '\n') content ||
  lineStartsAccept data_pattern_yaml content ||
  reSearch data_pattern_table content

/-- Association-list lookup (Python `dict` access / `in` test). -/
def alookup {α : Type} (k : String) : List (String × α) → Option α
  | [] => none
  | (k', v) :: rest => if k' == k then some v else alookup k rest

/-- `_map_file_type_to_content_type` (src/config/models.py lines 314-328). -/
def _map_file_type_to_content_type (file_type : String) : String :=
  let mappings : List (String × String) :=
    [("py", "code"), ("js", "code"), ("ts", "code"), ("java", "code"),
     ("cpp", "code"), ("json", "data"), ("csv", "data"), ("yaml", "data"),
     ("yml", "data"), ("xml", "data")]
  (alookup file_type.toLower mappings).getD "general"

/-- A file dictionary, reduced to the one key the classifier reads. -/
structure PyFile where
  name : Option Str

/-- `pathlib.Path(...).suffix`: the last dot-suffix of the final path
component, empty when the dot is first or absent. -/
def pathSuffix (nm : Str) : Str :=
  let base := (splitOnChar '/' nm).getLastD []
  let idx := base.length - 1 - ((base.reverse.indexOf '.'))
  if base.contains '.' && 0 < idx && idx < base.length - 1 then base.drop idx
  else if base.contains '.' && 0 < idx && idx == base.length - 1 then []
  else []

/-- Python `str.lstrip(".")`. -/
def lstripDot (s : Str) : Str := s.dropWhile (· == '.')

/-- `_determine_type_from_files` (src/config/models.py lines 330-337). -/
def _determine_type_from_files : List PyFile → String
  | [] => "general"
  | f :: rest =>
    let ext := lstripDot (lowerStr (pathSuffix (f.name.getD [])))
    let content_type := _map_file_type_to_content_type (String.mk ext)
    if content_type ≠ "general" then content_type
    else _determine_type_from_files rest

/-- The optional `context` dictionary of `determine_content_type`, reduced to
the two keys it reads. -/
structure Ctx where
  file_type : Option String
  available_files : Option (List PyFile)

/-- `determine_content_type` (src/config/models.py lines 207-228). -/
def determine_content_type (content : Str) (context : Option Ctx) : String :=
  if _is_conversational content then "conversation"
  else if contains_code content then "code"
  else if _contains_structured_data content then "data"
  else
    match context with
    | some ctx =>
      match ctx.file_type with
      | some ft => _map_file_type_to_content_type ft
      | none =>
        match ctx.available_files with
        | some files => _determine_type_from_files files
        | none => "general"
    | none => "general"

/-- One category of `ANALYSIS_RULES` (src/config/models.py lines 6-79):
`default`, `description` and `mandatory`.  Python sets are modeled as lists
and set union as list append throughout; every property proved below is a
membership/superset property, for which this is equivalent. -/
structure RuleCategory where
  default : List String
  description : List (String × String)
  mandatory : List String

/-- `ANALYSIS_RULES` (src/config/models.py lines 6-79). -/
def ANALYSIS_RULES : List (String × RuleCategory) :=
  [("code",
    ⟨["no_omissions", "no_overengineering", "maintain_style",
      "practical_improvements", "actual_code_focus"],
     [("no_omissions", "Non omettere parti di codice usando (...)"),
      ("no_overengineering", "No sovra-ingegnerizzazione non richiesta"),
      ("maintain_style", "Mantieni lo stile e l'approccio esistente"),
      ("practical_improvements", "Solo miglioramenti pratici e concreti"),
      ("actual_code_focus", "Focus sul codice effettivo, no speculazioni")],
     ["no_omissions", "maintain_style"]⟩),
   ("conversation",
    ⟨["natural_flow", "context_awareness", "appropriate_tone"],
     [("natural_flow", "Mantieni un flusso naturale della conversazione"),
      ("context_awareness", "Considera il contesto della discussione"),
      ("appropriate_tone", "Usa un tono appropriato al contesto")],
     ["natural_flow", "context_awareness"]⟩),
   ("data",
    ⟨["complete_analysis", "show_insights", "statistical_relevance",
      "practical_visualization"],
     [("complete_analysis", "Mostra tutti gli step dell'analisi"),
      ("show_insights", "Evidenzia pattern e insights significativi"),
      ("statistical_relevance", "Includi rilevanza statistica"),
      ("practical_visualization", "Suggerisci visualizzazioni utili")],
     ["complete_analysis", "show_insights"]⟩),
   ("json",
    ⟨["complete_processing", "show_transformations", "structural_focus",
      "optimization_suggestions"],
     [("complete_processing", "Processing completo dei dati"),
      ("show_transformations", "Mostra trasformazioni dati"),
      ("structural_focus", "Focus sulla struttura dati"),
      ("optimization_suggestions", "Suggerimenti di ottimizzazione")],
     ["complete_processing", "structural_focus"]⟩)]

/-- One preset of `RULE_PRESETS` (src/config/models.py lines 82-116). -/
structure RulePreset where
  name : String
  description : String
  enabled_rules : List (String × List String)

/-- `RULE_PRESETS` (src/config/models.py lines 82-116). -/
def RULE_PRESETS : List (String × RulePreset) :=
  [("conversational",
    ⟨"Conversational Mode", "Ottimizzato per conversazioni naturali",
     [("conversation", ["natural_flow", "context_awareness", "appropriate_tone"])]⟩),
   ("technical",
    ⟨"Technical Analysis", "Analisi tecnica approfondita",
     [("code", ["no_omissions", "maintain_style", "practical_improvements"]),
      ("data", ["complete_analysis", "show_insights"])]⟩),
   ("full_stack",
    ⟨"Full Stack Analysis", "Analisi completa per applicazioni full stack",
     [("code", ["no_omissions", "maintain_style", "practical_improvements"]),
      ("data", ["complete_analysis", "show_insights"]),
      ("api", ["security_check", "performance_check"])]⟩),
   ("data_pipeline",
    ⟨"Data Pipeline", "Analisi focalizzata sul processing dati",
     [("data", ["complete_analysis", "show_insights", "statistical_relevance"]),
      ("json", ["complete_processing", "show_transformations"]),
      ("config", ["validation_check", "security_check"])]⟩)]

/-- `ANALYSIS_RULES.get(ct, \x7b\x7d).get("mandatory", [])`. -/
def mandatoryOf (content_type : String) : List String :=
  ((alookup content_type ANALYSIS_RULES).map RuleCategory.mandatory).getD []

/-- `ANALYSIS_RULES.get(ct, \x7b\x7d).get("default", [])`. -/
def defaultOf (content_type : String) : List String :=
  ((alookup content_type ANALYSIS_RULES).map RuleCategory.default).getD []

/-- `get_active_rules` (src/config/models.py lines 339-354).  The Python
guard `if preset and preset in RULE_PRESETS` requires a non-`None`,
non-empty, known preset name; otherwise mandatory rules are united with the
category's default rules. -/
def get_active_rules (content_type : String) (preset : Option String) : List String :=
  let mandatory_rules := mandatoryOf content_type
  match preset with
  | some p =>
    if p ≠ "" ∧ (alookup p RULE_PRESETS).isSome then
      let preset_rules :=
        ((alookup p RULE_PRESETS).getD ⟨"", "", []⟩).enabled_rules.foldl
          (fun acc rt => if rt.1 == content_type then acc ++ rt.2 else acc) []
      mandatory_rules ++ preset_rules
    else mandatory_rules ++ defaultOf content_type
  | none => mandatory_rules ++ defaultOf content_type

/-- `merge_rule_sets` (src/config/models.py lines 412-421): for each known
category, union in its mandatory and default rules; unknown categories are
skipped. -/
def merge_rule_sets (rule_sets : List String) : List String :=
  rule_sets.foldl
    (fun merged rule_set =>
      match alookup rule_set ANALYSIS_RULES with
      | some cat => merged ++ cat.mandatory ++ cat.default
      | none => merged) []

end Models

/-- Helper for C5: whatever the preset argument, `get_active_rules` returns
the mandatory rules of the content type united with something, so every
mandatory rule is a member of the result. -/
theorem mem_active_rules_of_mem_mandatory (ct : String) (preset : Option String)
    (r : String) (hr : r ∈ Models.mandatoryOf ct) :
    r ∈ Models.get_active_rules ct preset := by
  unfold Models.get_active_rules
  cases preset with
  | none => exact List.mem_append_left _ hr
  | some p =>
    simp only
    split
    · exact List.mem_append_left _ hr
    · exact List.mem_append_left _ hr

/-- C1 (amended): `classify('\x7b"a": 1, "b": [1,2,3]\x7d')` with no context
returns `conversation`, not `data`: the snippet is 4 whitespace-separated
tokens, matches no conversational pattern but also no technical indicator,
so `_is_conversational` falls through to its final `return True`. -/
theorem C1_classify_json_returns_conversation :
    Models.determine_content_type "\x7b\"a\": 1, \"b\": [1,2,3]\x7d".data none =
      "conversation" := by decide

/-- C1 counterexample: the claimed output `data` is not what
`determine_content_type` returns on that input; it returns `conversation`. -/
theorem C1_classify_json_not_data :
    Models.determine_content_type "\x7b\"a\": 1, \"b\": [1,2,3]\x7d".data none =
        "conversation" ∧
      ¬ (Models.determine_content_type "\x7b\"a\": 1, \"b\": [1,2,3]\x7d".data none =
        "data") := by
  constructor
  · decide
  · decide

/-- C2 (amended): for every text of fewer than 15 whitespace-separated
tokens that matches a conversational pattern, `classify` returns
`conversation` at the conversational test even when a technical indicator
also matches: the conversational loop returns before technical indicators
are consulted, so the override applies only to texts that match no
conversational pattern. -/
theorem C2_short_conversational_text_classified_conversation
    (content : Str) (context : Option Models.Ctx)
    (hlen : (splitTokens content).length < 15)
    (hconv : Models.conversation_match (lowerStr content) = true) :
    Models.determine_content_type content context = "conversation" := by
  have h : Models._is_conversational content = true := by
    simp only [Models._is_conversational]
    rw [if_pos (And.intro hlen hconv)]
  simp [Models.determine_content_type, h]

/-- C2 witness: `"ciao def"` is 2 tokens and matches the greeting pattern,
and the theorem applies to it. -/
theorem C2_short_conversational_witness :
    (splitTokens "ciao def".data).length < 15 ∧
      Models.conversation_match (lowerStr "ciao def".data) = true ∧
      Models.determine_content_type "ciao def".data none = "conversation" :=
  ⟨by decide, by decide,
    C2_short_conversational_text_classified_conversation "ciao def".data none
      (by decide) (by decide)⟩

/-- C2 counterexample: `"ciao def"` has fewer than 15 tokens, matches the
greeting pattern AND the keyword-declaration technical indicator, yet
`classify` still returns `conversation` at the conversational test — the
technical signal does not override. -/
theorem C2_technical_does_not_override :
    (splitTokens "ciao def".data).length < 15 ∧
      Models.conversation_match (lowerStr "ciao def".data) = true ∧
      Models.technical_match (lowerStr "ciao def".data) = true ∧
      Models.determine_content_type "ciao def".data none = "conversation" := by
  refine ⟨by decide, by decide, by decide, by decide⟩

/-- C5: `get_active_rules("code", preset)` contains `no_omissions` and
`maintain_style` for every preset (known, unknown or `None`); in general the
result contains every mandatory rule of the content type. -/
theorem C5_active_rules_contain_mandatory :
    (∀ preset : Option String,
        "no_omissions" ∈ Models.get_active_rules "code" preset ∧
        "maintain_style" ∈ Models.get_active_rules "code" preset) ∧
      ∀ (ct : String) (preset : Option String) (r : String),
        r ∈ Models.mandatoryOf ct → r ∈ Models.get_active_rules ct preset := by
  constructor
  · intro preset
    exact ⟨mem_active_rules_of_mem_mandatory "code" preset _ (by decide),
      mem_active_rules_of_mem_mandatory "code" preset _ (by decide)⟩
  · exact mem_active_rules_of_mem_mandatory

namespace CodeAnalyzer

/-- One entry of the `patterns` table of `_summarize_change_block`: a keyword
that captures the following identifier (`def\s+(\w+)` and friends), a keyword
followed by whitespace with no capture (`return\s+`, `if\s+`, ...), or a
plain substring (`try:`). -/
inductive DiffPat where
  | capt (kw : Str) (description : String) : DiffPat
  | kwws (kw : Str) (description : String) : DiffPat
  | plain (kw : Str) (description : String) : DiffPat

/-- The description attached to a diff pattern. -/
def DiffPat.descr : DiffPat → String
  | .capt _ d => d
  | .kwws _ d => d
  | .plain _ d => d

/-- The ordered `patterns` table of `_summarize_change_block`
(src/services/code_analyzer.py lines 722-731, identical in
src/components/chat_interface.py lines 484-493). -/
def diff_patterns : List DiffPat :=
  [.capt "def".data "funzione", .capt "class".data "classe",
   .capt "import".data "import", .kwws "return".data "return statement",
   .kwws "if".data "condizione", .kwws "for".data "loop",
   .kwws "while".data "loop", .plain "try:".data "gestione errori"]

/-- `re.search(kw + '\s+(\w+)', line)`: leftmost occurrence of the keyword
followed by whitespace and a word; returns the captured word (the maximal
word run after the whitespace run). -/
def findKwName (kw : Str) : Str → Option Str
  | [] => none
  | c :: cs =>
    if kw.isPrefixOf (c :: cs) then
      let after := (c :: cs).drop kw.length
      let rest := after.dropWhile pyIsSpace
      if after.any pyIsSpace && rest.length < after.length &&
          (match rest.head? with
           | some d => pyIsWordChar d
           | none => false) then
        some (rest.takeWhile pyIsWordChar)
      else findKwName kw cs
    else findKwName kw cs

/-- `re.search(kw + '\s+', line)`: the keyword occurs followed by at least
one whitespace character. -/
def findKwWs (kw : Str) : Str → Bool
  | [] => false
  | c :: cs =>
    (kw.isPrefixOf (c :: cs) &&
      (match ((c :: cs).drop kw.length).head? with
       | some d => pyIsSpace d
       | none => false)) ||
    findKwWs kw cs

/-- Does a diff pattern match a line, and with which capture? -/
def patMatch (p : DiffPat) (line : Str) : Option (Option Str) :=
  match p with
  | .capt kw _ => (findKwName kw line).map some
  | .kwws kw _ => if findKwWs kw line then some none else none
  | .plain kw _ => if containsSub kw line then some none else none

/-- First line of the list the pattern matches, with its capture. -/
def firstPatMatch (p : DiffPat) : List Str → Option (Option Str)
  | [] => none
  | l :: ls =>
    match patMatch p l with
    | some g => some g
    | none => firstPatMatch p ls

/-- `f"Aggiunto/Rimosso <description> '<name>'"` or the uncaptured form. -/
def renderChange (verb : String) (descr : String) : Option Str → String
  | some nm => verb ++ " " ++ descr ++ " '" ++ String.mk nm ++ "'"
  | none => verb ++ " " ++ descr

/-- The pattern loop of `_summarize_change_block`: additions are scanned
before deletions for each pattern, in table order. -/
def summarizeLoop (additions deletions : List Str) : List DiffPat → Option String
  | [] => none
  | p :: ps =>
    match firstPatMatch p additions with
    | some g => some (renderChange "Aggiunto" p.descr g)
    | none =>
      match firstPatMatch p deletions with
      | some g => some (renderChange "Rimosso" p.descr g)
      | none => summarizeLoop additions deletions ps

/-- `_summarize_change_block` (src/services/code_analyzer.py lines 713-752,
identical in src/components/chat_interface.py lines 476-512). -/
def _summarize_change_block (block : List Str) : Option String :=
  if block.isEmpty then none
  else
    let additions := (block.filter fun l => "+ ".data.isPrefixOf l).map (List.drop 2)
    let deletions := (block.filter fun l => "- ".data.isPrefixOf l).map (List.drop 2)
    match summarizeLoop additions deletions diff_patterns with
    | some msg => some msg
    | none =>
      if block.length == 1 then some "Modificata una linea"
      else some ("Modificate " ++ toString block.length ++ " linee")

/-- Loop of `_generate_diff_summary`, carrying the current change block:
`? ` lines are skipped, `+ `/`- ` lines accumulate, any other (context) line
flushes the block. -/
def diffSummaryGo (current_block : List Str) : List Str → List String
  | [] =>
    if !current_block.isEmpty then
      match _summarize_change_block current_block with
      | some s => [s]
      | none => []
    else []
  | line :: rest =>
    if "? ".data.isPrefixOf line then diffSummaryGo current_block rest
    else if "+ ".data.isPrefixOf line || "- ".data.isPrefixOf line then
      diffSummaryGo (current_block ++ [line]) rest
    else
      (if !current_block.isEmpty then
        match _summarize_change_block current_block with
        | some s => [s]
        | none => []
      else []) ++ diffSummaryGo [] rest

/-- `_generate_diff_summary` (src/services/code_analyzer.py lines 686-711,
identical in src/components/chat_interface.py lines 451-474). -/
def _generate_diff_summary (diff : List Str) : List String := diffSummaryGo [] diff

/-- Expression contexts of `ast.Name` (only `Store` and `Load` are
inspected by the analyzer). -/
inductive PyCtx where
  | store : PyCtx
  | load : PyCtx
  | del : PyCtx
deriving DecidableEq

/-- Python abstract syntax, reduced to the node shapes the analyzer
distinguishes; every other node is `other` with its child list.  `ast.parse`
is CPython's parser (external to this repository) and is modeled as an
oracle producing the module body; docstrings (`ast.get_docstring`) and
return annotations (`ast.unparse(node.returns)`) are carried as fields of
the oracle's nodes.  Argument subtrees and annotation subtrees are not
modeled as children. -/
inductive PyAst where
  | functionDef (name : String) (args kwonlyargs defaults : Nat)
      (vararg kwarg : Bool) (docstring : Option String)
      (decorator_list : List PyAst) (returns : Option String)
      (body : List PyAst) : PyAst
  | classDef (name : String) (bases : List PyAst) (docstring : Option String)
      (decorator_list : List PyAst) (body : List PyAst) : PyAst
  | ifStmt (children : List PyAst) : PyAst
  | forStmt (children : List PyAst) : PyAst
  | whileStmt (children : List PyAst) : PyAst
  | tryStmt (handlers : Nat) (children : List PyAst) : PyAst
  | importStmt (names : List (String × Option String)) : PyAst
  | importFrom (module : Option String) (names : List (String × Option String)) : PyAst
  | call (func : PyAst) (args : List PyAst) : PyAst
  | attribute (value : PyAst) (attr : String) : PyAst
  | name (id : String) (ctx : PyCtx) : PyAst
  | other (children : List PyAst) : PyAst

/-- `ast.parse` oracle: `none` models a `SyntaxError`, `some body` the body
of the parsed `Module`. -/
abbrev PyParse := Str → Option (List PyAst)

/-- `ast.iter_child_nodes`, in field order, for the modeled constructors. -/
def childrenOf : PyAst → List PyAst
  | .functionDef _ _ _ _ _ _ _ dec _ body => body ++ dec
  | .classDef _ bases _ dec body => bases ++ body ++ dec
  | .ifStmt ch => ch
  | .forStmt ch => ch
  | .whileStmt ch => ch
  | .tryStmt _ ch => ch
  | .importStmt _ => []
  | .importFrom _ _ => []
  | .call f args => f :: args
  | .attribute v _ => [v]
  | .name _ _ => []
  | .other ch => ch

/-- State of the `ComplexityVisitor` (src/services/code_analyzer.py lines
175-220). -/
structure CVState where
  current_depth : Nat
  max_depth : Nat
  branches : Nat
  cognitive_load : Nat
deriving DecidableEq

mutual

/-- `ComplexityVisitor.visit`: dispatch on the node kind; unhandled kinds
fall through to `generic_visit` (visit all children). -/
def cvisit (s : CVState) : PyAst → CVState
  | .functionDef _ _ _ _ _ _ _ dec _ body =>
    cvisitList (cvisitList { s with cognitive_load := s.cognitive_load + 1 } body) dec
  | .classDef _ bases _ dec body =>
    cvisitList (cvisitList (cvisitList
      { s with cognitive_load := s.cognitive_load + 1 } bases) body) dec
  | .ifStmt ch =>
    let s := { s with branches := s.branches + 1,
                      cognitive_load := s.cognitive_load + 1,
                      current_depth := s.current_depth + 1 }
    let s := { s with max_depth := max s.max_depth s.current_depth }
    let s := cvisitList s ch
    { s with current_depth := s.current_depth - 1 }
  | .forStmt ch =>
    let s := { s with branches := s.branches + 1,
                      cognitive_load := s.cognitive_load + 2,
                      current_depth := s.current_depth + 1 }
    let s := { s with max_depth := max s.max_depth s.current_depth }
    let s := cvisitList s ch
    { s with current_depth := s.current_depth - 1 }
  | .whileStmt ch =>
    let s := { s with branches := s.branches + 1,
                      cognitive_load := s.cognitive_load + 2,
                      current_depth := s.current_depth + 1 }
    let s := { s with max_depth := max s.max_depth s.current_depth }
    let s := cvisitList s ch
    { s with current_depth := s.current_depth - 1 }
  | .tryStmt handlers ch =>
    let s := { s with branches := s.branches + (handlers + 1),
                      cognitive_load := s.cognitive_load + 1,
                      current_depth := s.current_depth + 1 }
    let s := { s with max_depth := max s.max_depth s.current_depth }
    let s := cvisitList s ch
    { s with current_depth := s.current_depth - 1 }
  | .importStmt _ => s
  | .importFrom _ _ => s
  | .call f args => cvisitList (cvisit s f) args
  | .attribute v _ => cvisit s v
  | .name _ _ => s
  | .other ch => cvisitList s ch

/-- Visit a list of nodes left to right. -/
def cvisitList (s : CVState) : List PyAst → CVState
  | [] => s
  | n :: ns => cvisitList (cvisit s n) ns

end

/-- `_analyze_complexity` (src/services/code_analyzer.py lines 160-234):
the complexity dict, as an association list (a parse failure returns the
three-key zero dict, success the five-key dict). -/
def _analyze_complexity (parse : PyParse) (code : Str) : List (String × Nat) :=
  match parse code with
  | none => [("cognitive_load", 0), ("nesting_depth", 0), ("branches", 0)]
  | some tree =>
    let v := cvisitList ⟨0, 0, 0, 0⟩ tree
    [("cognitive_load", v.cognitive_load),
     ("nesting_depth", v.max_depth),
     ("branches", v.branches),
     ("max_method_complexity", 0),
     ("total_complexity", v.cognitive_load + v.max_depth * 2 + v.branches)]

/-- Per-function complexity triple (`_analyze_function_complexity`). -/
structure FuncComplexity where
  cognitive_load : Nat
  nesting_depth : Nat
  branches : Nat
deriving DecidableEq

/-- The per-function record assembled by `ASTAnalyzer.visit_FunctionDef`.
Decorator names may be Python `None` (when `_get_call_name` returns `None`),
hence `Option String` entries.  `local_vars` is a Python set, modeled as an
insertion-ordered duplicate-free list. -/
structure FunctionInfo where
  name : String
  args : Nat
  kwargs : Nat
  defaults : Nat
  has_varargs : Bool
  has_kwargs : Bool
  docstring : Option String
  decorators : List (Option String)
  returns : Option String
  complexity : FuncComplexity
  calls : List String
  attributes : List String
  local_vars : List String
deriving DecidableEq

/-- The per-class record assembled by `ASTAnalyzer.visit_ClassDef`
(`methods` is initialized empty and never filled by the source). -/
structure ClassInfo where
  name : String
  bases : List String
  docstring : Option String
  decorators : List (Option String)
  methods : List String
  attributes : List String
deriving DecidableEq

/-- The attribute chain of `_get_attribute_name`: outermost attribute first,
then the base name if the chain ends in one. -/
def attrParts : PyAst → List String
  | .attribute v a => a :: attrParts v
  | .name id _ => [id]
  | _ => []

/-- `'.'.join`. -/
def joinDot : List String → String
  | [] => ""
  | [x] => x
  | x :: xs => x ++ "." ++ joinDot xs

/-- `_get_attribute_name` (src/services/code_analyzer.py lines 388-396). -/
def _get_attribute_name (node : PyAst) : String := joinDot (attrParts node).reverse

/-- `_get_call_name` (src/services/code_analyzer.py lines 381-386): the
called name of a `Call` node, `None` for anything else. -/
def _get_call_name (node : PyAst) : Option String :=
  match node with
  | .call f _ =>
    match f with
    | .name id _ => some id
    | .attribute _ _ => some (_get_attribute_name f)
    | _ => none
  | _ => none

/-- `_get_decorator_name` (src/services/code_analyzer.py lines 358-365). -/
def _get_decorator_name (node : PyAst) : Option String :=
  match node with
  | .name id _ => some id
  | .call _ _ => _get_call_name node
  | .attribute _ _ => some (_get_attribute_name node)
  | _ => some "unknown_decorator"

/-- `_get_name` (src/services/code_analyzer.py lines 398-403). -/
def _get_name (node : PyAst) : String :=
  match node with
  | .name id _ => id
  | .attribute _ _ => _get_attribute_name node
  | _ => "unknown"

/-- Python truthiness of an optional docstring: `None` and the empty string
are falsy. -/
def strFalsy : Option String → Bool
  | none => true
  | some s => s == ""

/-- Set insertion for Python sets modeled as insertion-ordered lists. -/
def addName (n : String) (l : List String) : List String :=
  if n ∈ l then l else l ++ [n]

/-- Mutable state of `ASTAnalyzer` (src/services/code_analyzer.py lines
247-403): the analysis dict plus the visitor's own fields. -/
structure AstAnState where
  functions : List FunctionInfo
  classes : List ClassInfo
  imports : List String
  issues : List String
  suggestions : List String
  current_class : Option ClassInfo
  current_function : Option FunctionInfo
  local_names : List String
  undefined_names : List String

mutual

/-- `ASTAnalyzer.visit`: dispatch on node kind, `generic_visit` otherwise. -/
def avisit (active_rules : List String) (st : AstAnState) : PyAst → AstAnState
  | .functionDef nm args kwonly defaults vararg kwarg doc dec ret body =>
    let v := cvisit ⟨0, 0, 0, 0⟩ (.functionDef nm args kwonly defaults vararg kwarg doc dec ret body)
    let func_analysis : FunctionInfo :=
      { name := nm, args := args, kwargs := kwonly, defaults := defaults,
        has_varargs := vararg, has_kwargs := kwarg, docstring := doc,
        decorators := dec.map _get_decorator_name, returns := ret,
        complexity := ⟨v.cognitive_load, v.max_depth, v.branches⟩,
        calls := [], attributes := [], local_vars := [] }
    let st := if strFalsy doc ∧ "maintain_style" ∈ active_rules then
        { st with issues := st.issues ++ ["Function " ++ nm ++ " missing docstring"] }
      else st
    let st := if args > 5 ∧ "practical_improvements" ∈ active_rules then
        { st with suggestions :=
            st.suggestions ++ ["Consider reducing number of arguments in " ++ nm] }
      else st
    let prev_function := st.current_function
    let st := { st with current_function := some func_analysis, local_names := [] }
    let st := avisitList active_rules (avisitList active_rules st body) dec
    let finished := match st.current_function with
      | some f => { f with local_vars := st.local_names }
      | none => func_analysis
    { st with functions := st.functions ++ [finished],
              current_function := prev_function }
  | .classDef nm bases doc dec body =>
    let class_analysis : ClassInfo :=
      { name := nm, bases := bases.map _get_name, docstring := doc,
        decorators := dec.map _get_decorator_name, methods := [], attributes := [] }
    let st := if strFalsy doc ∧ "maintain_style" ∈ active_rules then
        { st with issues := st.issues ++ ["Class " ++ nm ++ " missing docstring"] }
      else st
    let prev_class := st.current_class
    let st := { st with current_class := some class_analysis }
    let st := avisitList active_rules
      (avisitList active_rules (avisitList active_rules st bases) body) dec
    let finished := (st.current_class).getD class_analysis
    { st with classes := st.classes ++ [finished], current_class := prev_class }
  | .importStmt names =>
    names.foldl (fun st nv =>
      { st with imports := st.imports ++ [nv.1],
                local_names := addName
                  (match nv.2 with
                   | some a => a
                   | none => ((nv.1.splitOn ".").headD nv.1)) st.local_names }) st
  | .importFrom module names =>
    names.foldl (fun st nv =>
      let full := match module with
        | some m => if m ≠ "" then m ++ "." ++ nv.1 else nv.1
        | none => nv.1
      { st with imports := st.imports ++ [full],
                local_names := addName (nv.2.getD nv.1) st.local_names }) st
  | .call f args =>
    let st := match _get_call_name (.call f args), st.current_function with
      | some cn, some fn =>
        { st with current_function := some { fn with calls := fn.calls ++ [cn] } }
      | _, _ => st
    avisitList active_rules (avisit active_rules st f) args
  | .attribute v a =>
    let attr_name := _get_attribute_name (.attribute v a)
    let stC := st
    let upd1 (c : ClassInfo) : AstAnState :=
      { stC with current_class := some { c with attributes := c.attributes ++ [attr_name] } }
    let upd2 (f : FunctionInfo) : AstAnState :=
      { stC with current_function := some { f with attributes := f.attributes ++ [attr_name] } }
    let st := if attr_name ≠ "" then
        (match stC.current_class with
         | some c => upd1 c
         | none =>
           (match stC.current_function with
            | some f => upd2 f
            | none => stC))
      else stC
    avisit active_rules st v
  | .name id ctx =>
    match ctx with
    | .store => { st with local_names := addName id st.local_names }
    | .load =>
      if id ∉ st.local_names ∧ id ≠ "self" ∧ id ≠ "cls" then
        { st with undefined_names := addName id st.undefined_names }
      else st
    | .del => st
  | .ifStmt ch => avisitList active_rules st ch
  | .forStmt ch => avisitList active_rules st ch
  | .whileStmt ch => avisitList active_rules st ch
  | .tryStmt _ ch => avisitList active_rules st ch
  | .other ch => avisitList active_rules st ch

/-- Visit a list of nodes left to right. -/
def avisitList (active_rules : List String) (st : AstAnState) : List PyAst → AstAnState
  | [] => st
  | n :: ns => avisitList active_rules (avisit active_rules st n) ns

end

/-- The analysis dict produced by `_analyze_ast`. -/
structure AstAnalysis where
  functions : List FunctionInfo
  classes : List ClassInfo
  imports : List String
  dependencies : List String
  issues : List String
  suggestions : List String

/-- `_analyze_dependencies` (src/services/code_analyzer.py lines 671-684). -/
def _analyze_dependencies (imports : List String) : List String :=
  let standard_lib : List String :=
    ["os", "sys", "re", "math", "datetime", "collections", "json",
     "random", "time", "pathlib", "typing", "abc", "logging"]
  imports.foldl (fun deps imp =>
    if ((imp.splitOn ".").headD "") ∉ standard_lib then deps ++ [imp] else deps) []

/-- `_analyze_ast` (src/services/code_analyzer.py lines 236-411), on the
module body. -/
def _analyze_ast (tree : List PyAst) (active_rules : Option (List String)) : AstAnalysis :=
  let rules := active_rules.getD []
  let st := avisitList rules ⟨[], [], [], [], [], none, none, [], []⟩ tree
  { functions := st.functions, classes := st.classes, imports := st.imports,
    dependencies := _analyze_dependencies st.imports,
    issues := st.issues, suggestions := st.suggestions }

/-- The statistics record built by `_get_code_stats`
(src/services/code_analyzer.py lines 100-158).  `avg_line_length` is a
Python float; it is modeled as an exact rational. -/
structure CodeStats where
  total_lines : Nat
  empty_lines : Nat
  code_lines : Nat
  comment_lines : Nat
  docstring_lines : Nat
  avg_line_length : ℚ
  max_line_length : Nat
  imports_count : Nat
  classes_count : Nat
  functions_count : Nat

/-- Loop state of `_get_code_stats`: the counters plus `total_length`,
`in_docstring` and `docstring_quotes`. -/
structure StatsAcc where
  empty_lines : Nat
  code_lines : Nat
  comment_lines : Nat
  docstring_lines : Nat
  imports_count : Nat
  classes_count : Nat
  functions_count : Nat
  total_length : Nat
  max_line_length : Nat
  in_docstring : Bool
  docstring_quotes : Nat

/-- The `"""` delimiter. -/
def tripleDQ : Str := "\"\"\"".data

/-- The `'''` delimiter. -/
def tripleSQ : Str := "'''".data

/-- Classification step of the `_get_code_stats` loop (runs after the
docstring-delimiter bookkeeping, using the updated `in_docstring`). -/
def classifyLine (acc : StatsAcc) (stripped : Str) : StatsAcc :=
  if stripped.isEmpty then { acc with empty_lines := acc.empty_lines + 1 }
  else if acc.in_docstring then { acc with docstring_lines := acc.docstring_lines + 1 }
  else if "#".data.isPrefixOf stripped then
    { acc with comment_lines := acc.comment_lines + 1 }
  else
    let acc := { acc with code_lines := acc.code_lines + 1 }
    if "import ".data.isPrefixOf stripped || "from ".data.isPrefixOf stripped then
      { acc with imports_count := acc.imports_count + 1 }
    else if "class ".data.isPrefixOf stripped then
      { acc with classes_count := acc.classes_count + 1 }
    else if "def ".data.isPrefixOf stripped then
      { acc with functions_count := acc.functions_count + 1 }
    else acc

/-- Length bookkeeping of the `_get_code_stats` loop: `total_length` and
`max_line_length` are updated for non-empty lines. -/
def lenStep (acc : StatsAcc) (line : Str) : StatsAcc :=
  if line.length > 0 then
    { acc with
      total_length := acc.total_length + line.length,
      max_line_length := max acc.max_line_length line.length }
  else acc

/-- One iteration of the `_get_code_stats` loop over one line: length
bookkeeping, docstring-delimiter bookkeeping (a line whose strip minus its
first three characters is blank is skipped entirely via `continue`), then
classification. -/
def statsStep (acc : StatsAcc) (line : Str) : StatsAcc :=
  let stripped := stripStr line
  let acc := lenStep acc line
  if containsSub tripleDQ line || containsSub tripleSQ line then
    let dq := acc.docstring_quotes + countOcc tripleDQ line + countOcc tripleSQ line
    let acc := { acc with docstring_quotes := dq, in_docstring := dq % 2 != 0 }
    if (stripStr (stripped.drop 3)).isEmpty then acc
    else classifyLine acc stripped
  else classifyLine acc stripped

/-- `_get_code_stats` (src/services/code_analyzer.py lines 100-158). -/
def _get_code_stats (code : Str) : CodeStats :=
  let lines := splitOnChar '\n' code
  let acc := lines.foldl statsStep
    ⟨0, 0, 0, 0, 0, 0, 0, 0, 0, false, 0⟩
  let non_empty := lines.length - acc.empty_lines
  { total_lines := lines.length,
    empty_lines := acc.empty_lines,
    code_lines := acc.code_lines,
    comment_lines := acc.comment_lines,
    docstring_lines := acc.docstring_lines,
    avg_line_length := if non_empty > 0 then (acc.total_length : ℚ) / non_empty else 0,
    max_line_length := acc.max_line_length,
    imports_count := acc.imports_count,
    classes_count := acc.classes_count,
    functions_count := acc.functions_count }

/-- `^[a-z_][a-z0-9_]*$` (`re.match`, so anchored full match on a `\w+`
capture). -/
def isSnakeName (n : Str) : Bool :=
  match n with
  | [] => false
  | c :: cs => (c.isLower || c == '_') && cs.all fun d => d.isLower || d.isDigit || d == '_'

/-- `^[A-Z][a-zA-Z0-9]*$`. -/
def isCamelName (n : Str) : Bool :=
  match n with
  | [] => false
  | c :: cs => c.isUpper && cs.all fun d => d.isAlpha || d.isDigit

/-- One attempt of `\b(?:def|class)\s+(\w+)` at the current position (the
word boundary is checked by the caller): `def` first, then `class`, each
followed by mandatory whitespace and a captured word. -/
def tryDefClass (s : Str) : Option (Str × Nat) :=
  let tryKw (kw : Str) : Option (Str × Nat) :=
    if kw.isPrefixOf s then
      let after := s.drop kw.length
      let ws := after.takeWhile pyIsSpace
      let rest := after.drop ws.length
      let nm := rest.takeWhile pyIsWordChar
      if ws.length > 0 ∧ nm.length > 0 then some (nm, kw.length + ws.length + nm.length)
      else none
    else none
  match tryKw "def".data with
  | some r => some r
  | none => tryKw "class".data

/-- `re.findall(r'\b(?:def|class)\s+(\w+)', code)`: non-overlapping scan,
left to right, carrying the previous character for the boundary test
(fuel-totalized; every step consumes at least one character). -/
def findNamesFuel : Nat → Option Char → Str → List Str
  | 0, _, _ => []
  | fuel + 1, prev, s =>
    match s with
    | [] => []
    | c :: cs =>
      let bnd := match prev with
        | none => true
        | some p => !pyIsWordChar p
      match (if bnd then tryDefClass (c :: cs) else none) with
      | some (nm, len) =>
        nm :: findNamesFuel fuel ((c :: cs).take len).getLast? ((c :: cs).drop len)
      | none => findNamesFuel fuel (some c) cs

/-- All `def`/`class` names found in the code. -/
def findDefClassNames (code : Str) : List Str := findNamesFuel code.length none code

/-- Alternative `[^=!<>]=[^=]` of the operator-spacing pattern. -/
def opAlt1 (line : Str) : Option (Str × Nat) :=
  match line with
  | a :: b :: c :: _ =>
    if (!(a == '=' || a == '!' || a == '<' || a == '>')) && b == '=' && (c != '=') then
      some ([a, b, c], 3)
    else none
  | _ => none

/-- Alternative `[+\-*/<>]=?` (greedy optional `=`). -/
def opAlt2 : Str → Option (Str × Nat)
  | a :: rest =>
    if a == '+' || a == '-' || a == '*' || a == '/' || a == '<' || a == '>' then
      (match rest with
       | '=' :: _ => some ([a, '='], 2)
       | _ => some ([a], 1))
    else none
  | [] => none

/-- One attempt of `[^=!<>]=[^=]|[+\-*/<>]=?` (first alternative wins). -/
def opMatchAt (line : Str) : Option (Str × Nat) :=
  match opAlt1 line with
  | some r => some r
  | none => opAlt2 line

/-- `re.finditer` of the operator pattern over one line (fuel-totalized). -/
def opMatches : Nat → Str → List Str
  | 0, _ => []
  | fuel + 1, s =>
    match s with
    | [] => []
    | c :: cs =>
      match opMatchAt (c :: cs) with
      | some (op, len) => op :: opMatches fuel ((c :: cs).drop len)
      | none => opMatches fuel cs

/-- The operator-spacing issues of one (1-based) line. -/
def lineOpIssues (i : Nat) (line : Str) : List String :=
  (opMatches line.length line).foldl
    (fun acc op =>
      if !(" ".data.isPrefixOf op && " ".data.isSuffixOf op) then
        acc ++ ["Linea " ++ toString i ++ ": spazi mancanti attorno all'operatore '" ++
          String.mk (stripStr op) ++ "'"]
      else acc) []

/-- 1-based enumeration (`enumerate(lines, 1)`). -/
def enumFrom1 (i : Nat) : List Str → List (Nat × Str)
  | [] => []
  | l :: ls => (i, l) :: enumFrom1 (i + 1) ls

/-- `_analyze_style` (src/services/code_analyzer.py lines 413-451): the
inconsistent-indentation message renders the modeled ordered list where
Python renders a set. -/
def _analyze_style (code : Str) : List String :=
  let lines := splitOnChar '\n' code
  let indent_sizes := lines.foldl
    (fun acc line =>
      if !(stripStr line).isEmpty then
        (let indent := line.length - (lstripStr line).length
         if indent > 0 ∧ indent ∉ acc then acc ++ [indent] else acc)
      else acc) []
  let issues := if indent_sizes.length > 1 then
      ["Indentazione inconsistente: trovate dimensioni " ++ toString indent_sizes]
    else []
  let issues := issues ++ (enumFrom1 1 lines).foldl
    (fun acc il =>
      if il.2.length > 79 then
        acc ++ ["Linea " ++ toString il.1 ++ " troppo lunga (" ++
          toString il.2.length ++ " caratteri)"]
      else acc) []
  let names := findDefClassNames code
  let snake_case := names.countP isSnakeName
  let camel_case := names.countP isCamelName
  let issues := if snake_case > 0 ∧ camel_case > 0 then
      issues ++ ["Mixing di convenzioni di naming (snake_case e CamelCase)"]
    else issues
  issues ++ (enumFrom1 1 lines).foldl (fun acc il => acc ++ lineOpIssues il.1 il.2) []

/-- Result of `_analyze_patterns`. -/
structure PatternAnalysis where
  issues : List String
  suggestions : List String

/-- The anti-pattern table of `_analyze_patterns` (src/services/
code_analyzer.py lines 461-490); `true` marks an `issues` entry. -/
def anti_patterns : List (Re × Bool × String) :=
  [(.cat (.lit "except:".data) (.cat (.star wsC) (.lit "pass".data)), true,
    "Bare except clause con pass trovata - gestire le eccezioni specifiche"),
   (.cat (.lit "except Exception as e:".data) (.cat (.star wsC) (.lit "pass".data)), true,
    "Eccezione generale catturata e ignorata"),
   (.cat (.lit "while True:".data) (.cat (.star dotC) (.lit "break".data)), false,
    "Consider replacing 'while True' with a more explicit condition"),
   (.cat (.lit "global".data) (.cat (.plus wsC) (.plus wdC)), false,
    "Uso di variabili globali - considerare refactoring per miglior design"),
   (.cat (.lit "print".data) (.cat (.star wsC) (.chr '(')), false,
    "Uso di print statements - considerare logging per codice di produzione"),
   (.cat (.lit "[i".data) (.cat (.plus wsC) (.cat (.lit "for".data)
      (.cat (.plus wsC) (.cat (.chr 'i') (.cat (.plus wsC) (.lit "in".data)))))), false,
    "List comprehension poco chiara - considerare nomi più descrittivi"),
   (.cat (.lit ".sort(".data) (.cat (.star dotC) (.lit "lambda".data)), false,
    "Uso di lambda in sort - considerare operator.itemgetter o methodcaller")]

/-- The performance-pattern table (lines 497-510). -/
def performance_patterns : List (Re × String) :=
  [(.cat (.chr '+') (.cat (.star wsC) (.lit "str(".data)),
    "String concatenation inefficiente - usare join() o f-strings"),
   (.lit "range(len(".data,
    "Uso di range(len()) - considerare enumerate()"),
   (.cat (.chr '[') (.cat (.star dotC) (.cat (.chr ']') (.cat (.star wsC)
      (.cat (.chr '*') (.cat (.star wsC) (.plus digC)))))),
    "List multiplication può essere inefficiente per grandi liste"),
   (.cat (.lit "dict([(".data) (.cat (.star dotC) (.lit ")])".data)),
    "Creazione dict inefficiente - usare dict comprehension")]

/-- `_analyze_patterns` (src/services/code_analyzer.py lines 453-516): one
message per pattern that matches at least once, in table order. -/
def _analyze_patterns (code : Str) : PatternAnalysis :=
  let a := anti_patterns.foldl
    (fun a p =>
      if reSearch p.1 code then
        (if p.2.1 then { a with issues := a.issues ++ [p.2.2] }
         else { a with suggestions := a.suggestions ++ [p.2.2] })
      else a)
    ⟨[], []⟩
  performance_patterns.foldl
    (fun a p =>
      if reSearch p.1 code then { a with suggestions := a.suggestions ++ [p.2] } else a) a

/-- The `file_info` dictionary, reduced to its `name` key. -/
structure FileInfo where
  name : Option Str
deriving DecidableEq

/-- File-type dispatch of `_analyze_security` (lines 522-531). -/
def securityFileType (file_info : Option FileInfo) : String :=
  match file_info with
  | some fi =>
    match fi.name with
    | some nm =>
      let ext := lowerStr (Models.pathSuffix nm)
      if ext = ".py".data then "python"
      else if ext = ".js".data ∨ ext = ".ts".data then "javascript"
      else if ext = ".html".data then "html"
      else "unknown"
    | none => "unknown"
  | none => "unknown"

/-- The python security table (lines 535-544). -/
def python_security : List (Re × String) :=
  [(.cat (.lit "eval".data) (.cat (.star wsC) (.chr '(')),
    "Uso di eval() - rischio di code injection"),
   (.cat (.lit "exec".data) (.cat (.star wsC) (.chr '(')),
    "Uso di exec() - rischio di code injection"),
   (.lit "subprocess.".data, "Uso di subprocess - verificare input sanitization"),
   (.cat (.lit "input".data) (.cat (.star wsC) (.chr '(')),
    "Uso di input() - verificare input validation"),
   (.cat (.lit "os.system".data) (.cat (.star wsC) (.chr '(')),
    "Uso di os.system() - rischio di command injection"),
   (.lit "pickle.".data, "Uso di pickle - rischio deserializzazione non sicura"),
   (.cat (.lit "yaml.load".data) (.cat (.star wsC) (.chr '(')),
    "Uso di yaml.load() - usare yaml.safe_load()"),
   (.cat (.lit ".raw_input".data) (.cat (.star wsC) (.chr '(')),
    "Uso di raw_input() - verificare input validation")]

/-- The javascript security table (lines 545-551). -/
def javascript_security : List (Re × String) :=
  [(.cat (.lit "eval".data) (.cat (.star wsC) (.chr '(')),
    "Uso di eval() - rischio di code injection"),
   (.lit "innerHTML".data, "Uso di innerHTML - rischio XSS"),
   (.cat (.lit "document.write".data) (.cat (.star wsC) (.chr '(')),
    "Uso di document.write() - rischio XSS"),
   (.lit "localStorage.".data, "Uso di localStorage - verificare dati sensibili"),
   (.cat (.lit "new".data) (.cat (.plus wsC) (.cat (.lit "Function".data)
      (.cat (.star wsC) (.chr '(')))),
    "Uso di new Function() - rischio code injection")]

/-- First two entries of the html security table (lines 552-556). -/
def html_security : List (Re × String) :=
  [(.cat (.lit "on".data) (.cat (.plus wdC) (.cat (.star wsC) (.chr '='))),
    "Event handler inline - rischio XSS"),
   (.lit "javascript:".data, "JavaScript URI - rischio XSS")]

/-- `<script\s+src=(quote)(?!https:)`: the negative lookahead is modeled as
a continuation on the remaining suffix. -/
def searchScriptSrc (code : Str) : Bool :=
  reSearchCont
    (.cat (.lit "<script".data) (.cat (.plus wsC) (.cat (.lit "src=".data)
      (.cls fun c => c == '\'' || c == '"'))))
    (fun rem => !("https:".data.isPrefixOf rem)) code

/-- The generic credential table (lines 566-571). -/
def generic_security : List (Re × String) :=
  [(.cat (.lit "password".data) (.cat (.star wsC) (.chr '=')),
    "Password in chiaro nel codice"),
   (.cat (.lit "api_key".data) (.cat (.star wsC) (.chr '=')),
    "API key in chiaro nel codice"),
   (.cat (.lit "secret".data) (.cat (.star wsC) (.chr '=')),
    "Secret in chiaro nel codice"),
   (.cat (.lit "token".data) (.cat (.star wsC) (.chr '=')),
    "Token in chiaro nel codice")]

/-- `_analyze_security` (src/services/code_analyzer.py lines 518-577). -/
def _analyze_security (code : Str) (file_info : Option FileInfo) : List String :=
  let ft := securityFileType file_info
  let tableIssues (tbl : List (Re × String)) : List String :=
    tbl.foldl (fun acc pm => if reSearch pm.1 code then acc ++ [pm.2] else acc) []
  let issues :=
    if ft == "python" then tableIssues python_security
    else if ft == "javascript" then tableIssues javascript_security
    else if ft == "html" then
      tableIssues html_security ++
        (if searchScriptSrc code then ["Script non HTTPS - rischio MITM"] else [])
    else []
  issues ++ tableIssues generic_security

/-- Model of `difflib.Differ().compare` (Python standard library, external
to this repository).  On equal inputs difflib emits every line as a
two-space-prefixed context line, which this model reproduces exactly; on
unequal inputs difflib chooses spans via SequenceMatcher and may add `? `
guide lines — no property proved below depends on unequal inputs, and the
model then emits the removal before the insertion, line by line. -/
def differCompare : List Str → List Str → List Str
  | [], bs => bs.map (fun b => "+ ".data ++ b)
  | a :: as', [] => ("- ".data ++ a) :: differCompare as' []
  | a :: as', b :: bs =>
    if a = b then ("  ".data ++ a) :: differCompare as' bs
    else ("- ".data ++ a) :: ("+ ".data ++ b) :: differCompare as' bs

/-- The `changes` dict of `_analyze_changes`. -/
structure Changes where
  lines_added : Nat
  lines_removed : Nat
  lines_modified : Nat
  complexity_delta : Int
  significant_changes : List String
  breaking_changes : List String
  diff_summary : List String

/-- Python-dict insertion for the function maps: an existing key keeps its
position and takes the new value, a new key is appended. -/
def dinsert (k : String) (v : Nat) : List (String × Nat) → List (String × Nat)
  | [] => [(k, v)]
  | kv :: rest => if kv.1 == k then (kv.1, v) :: rest else kv :: dinsert k v rest

mutual

/-- Size measure of a node (for the breadth-first walk's termination). -/
def sizeA : PyAst → Nat
  | .functionDef _ _ _ _ _ _ _ dec _ body => 1 + sizeL dec + sizeL body
  | .classDef _ bases _ dec body => 1 + sizeL bases + sizeL dec + sizeL body
  | .ifStmt ch => 1 + sizeL ch
  | .forStmt ch => 1 + sizeL ch
  | .whileStmt ch => 1 + sizeL ch
  | .tryStmt _ ch => 1 + sizeL ch
  | .importStmt _ => 1
  | .importFrom _ _ => 1
  | .call f args => 1 + sizeA f + sizeL args
  | .attribute v _ => 1 + sizeA v
  | .name _ _ => 1
  | .other ch => 1 + sizeL ch

/-- Size measure of a node list. -/
def sizeL : List PyAst → Nat
  | [] => 0
  | n :: ns => sizeA n + sizeL ns

end

theorem sizeL_append (l1 l2 : List PyAst) : sizeL (l1 ++ l2) = sizeL l1 + sizeL l2 := by
  induction l1 with
  | nil => simp [sizeL]
  | cons n ns ih => simp [sizeL, ih]; omega

theorem sizeL_children_lt (n : PyAst) : sizeL (childrenOf n) < sizeA n := by
  cases n <;> simp [childrenOf, sizeA, sizeL, sizeL_append] <;> omega

/-- `ast.walk`: breadth-first enumeration of all nodes from the given
queue. -/
def pyWalk : List PyAst → List PyAst
  | [] => []
  | n :: rest => n :: pyWalk (rest ++ childrenOf n)
termination_by q => sizeL q
decreasing_by
  rw [sizeL_append]
  have h := sizeL_children_lt n
  simp [sizeL]
  omega

/-- The `{node.name: node for node in ast.walk(tree) if FunctionDef}` maps,
reduced to the one field compared (`len(node.args.args)`). -/
def buildFuncDict (tree : List PyAst) : List (String × Nat) :=
  ((pyWalk tree).foldl
    (fun acc n =>
      match n with
      | .functionDef nm args _ _ _ _ _ _ _ _ => acc ++ [(nm, args)]
      | _ => acc) []).foldl (fun d kv => dinsert kv.1 kv.2 d) []

/-- Dict lookup over the function maps. -/
def flookup (k : String) : List (String × Nat) → Option Nat
  | [] => none
  | kv :: rest => if kv.1 == k then some kv.2 else flookup k rest

/-- The `AnalysisResult` dataclass (src/services/code_analyzer.py lines
9-20). -/
structure AnalysisResult where
  stats : CodeStats
  complexity : List (String × Nat)
  issues : List String
  suggestions : List String
  functions : List FunctionInfo
  classes : List ClassInfo
  imports : List String
  dependencies : List String
  version_changes : Option Changes

/-- One entry of `self.previous_analyses`: `\x7b'code': code, 'analysis':
result\x7d`. -/
structure PrevEntry where
  code : Str
  analysis : AnalysisResult

/-- One step of the line-counting loop of `_analyze_changes` (lines
598-604): the `elif` chain on the diff-line prefix. -/
def changesLineStep (c : Changes) (l : Str) : Changes :=
  if "+ ".data.isPrefixOf l then { c with lines_added := c.lines_added + 1 }
  else if "- ".data.isPrefixOf l then { c with lines_removed := c.lines_removed + 1 }
  else if "? ".data.isPrefixOf l then { c with lines_modified := c.lines_modified + 1 }
  else c

/-- One step of the removed/changed-signature loop of `_analyze_changes`
(lines 643-654), over the entries of `previous_funcs`. -/
def breakingStep (current_funcs : List (String × Nat)) (acc : List String)
    (kv : String × Nat) : List String :=
  match flookup kv.1 current_funcs with
  | none => acc ++ ["Funzione rimossa: " ++ kv.1]
  | some curr_args =>
    if kv.2 ≠ curr_args then
      acc ++ ["Signature cambiata per " ++ kv.1 ++ ": da " ++ toString kv.2 ++
        " a " ++ toString curr_args ++ " argomenti"]
    else acc

/-- One step of the new-function loop (lines 657-659), over the entries of
`current_funcs`. -/
def newFuncStep (previous_funcs : List (String × Nat)) (acc : List String)
    (kv : String × Nat) : List String :=
  if (flookup kv.1 previous_funcs).isNone then acc ++ ["Nuova funzione: " ++ kv.1]
  else acc

/-- `_analyze_changes` (src/services/code_analyzer.py lines 579-669).  The
`'cognitive_load'` key is present in both branches of
`_analyze_complexity` and in every stored analysis, so `getD 0` reads the
actual value and the surrounding `except` never fires; the text of the
`SyntaxError` caught by the function-analysis block (`str(e)`) depends on
CPython's message and is modeled by its fixed prefix case `invalid
syntax`. -/
def _analyze_changes (parse : PyParse) (current_code : Str) (previous : PrevEntry) :
    Changes :=
  let current_lines := splitlinesPy current_code
  let previous_lines := splitlinesPy previous.code
  let diff := differCompare previous_lines current_lines
  let c1 := diff.foldl changesLineStep (⟨0, 0, 0, 0, [], [], []⟩ : Changes)
  let current_complexity := _analyze_complexity parse current_code
  let complexity_delta : Int :=
    ((Models.alookup "cognitive_load" current_complexity).getD 0 : Int) -
    ((Models.alookup "cognitive_load" previous.analysis.complexity).getD 0 : Int)
  let c2 := { c1 with
    complexity_delta := complexity_delta,
    significant_changes := c1.significant_changes ++
      (if complexity_delta.natAbs > 5 then
        ["Significativo cambio di complessità: " ++ toString complexity_delta]
       else []) }
  let c3 :=
    match parse current_code, parse previous.code with
    | some current_tree, some previous_tree =>
      let current_funcs := buildFuncDict current_tree
      let previous_funcs := buildFuncDict previous_tree
      let breaking := previous_funcs.foldl (breakingStep current_funcs) c2.breaking_changes
      let signif := current_funcs.foldl (newFuncStep previous_funcs) c2.significant_changes
      { c2 with breaking_changes := breaking, significant_changes := signif }
    | _, _ =>
      { c2 with significant_changes := c2.significant_changes ++
          ["Errore nell'analisi delle funzioni: invalid syntax"] }
  { c3 with diff_summary := _generate_diff_summary diff }

/-- `self.previous_analyses` as a string-keyed association map. -/
def AnalyzerState : Type := List (Str × PrevEntry)

/-- `self.previous_analyses.get(name)`. -/
def stateLookup (k : Str) : List (Str × PrevEntry) → Option PrevEntry
  | [] => none
  | kv :: rest => if kv.1 = k then some kv.2 else stateLookup k rest

/-- `self.previous_analyses[name] = entry` (existing key overwritten in
place, new key appended). -/
def stateInsert (k : Str) (v : PrevEntry) : List (Str × PrevEntry) → List (Str × PrevEntry)
  | [] => [(k, v)]
  | kv :: rest => if kv.1 = k then (kv.1, v) :: rest else kv :: stateInsert k v rest

/-- `analyze_code` (src/services/code_analyzer.py lines 26-98): the
returned result paired with the updated `previous_analyses` state.  The
modeled computation is total, so the outer `except Exception` fallback
(lines 87-98) is unreachable. -/
def analyze_code (parse : PyParse) (st : List (Str × PrevEntry)) (code : Str)
    (file_info : Option FileInfo) (active_rules : Option (List String)) :
    AnalysisResult × List (Str × PrevEntry) :=
  let result : AnalysisResult :=
    { stats := _get_code_stats code,
      complexity := _analyze_complexity parse code,
      issues := [], suggestions := [], functions := [], classes := [],
      imports := [], dependencies := [], version_changes := none }
  let result :=
    match parse code with
    | some tree =>
      let a := _analyze_ast tree active_rules
      { result with functions := a.functions, classes := a.classes,
                    imports := a.imports, dependencies := a.dependencies,
                    issues := result.issues ++ a.issues,
                    suggestions := result.suggestions ++ a.suggestions }
    | none =>
      { result with issues := result.issues ++ ["Il codice contiene errori di sintassi"] }
  let result := { result with issues := result.issues ++ _analyze_style code }
  let pa := _analyze_patterns code
  let result := { result with issues := result.issues ++ pa.issues,
                              suggestions := result.suggestions ++ pa.suggestions }
  let result := { result with issues := result.issues ++ _analyze_security code file_info }
  let result :=
    match file_info with
    | some fi =>
      match fi.name with
      | some nm =>
        (match stateLookup nm st with
         | some prev =>
           { result with version_changes := some (_analyze_changes parse code prev) }
         | none => result)
      | none => result
    | none => result
  match file_info with
  | some fi =>
    match fi.name with
    | some nm => (result, stateInsert nm ⟨code, result⟩ st)
    | none => (result, st)
  | none => (result, st)

end CodeAnalyzer

/-- The four line-category counters of the stats accumulator. -/
def sumCat (acc : CodeAnalyzer.StatsAcc) : Nat :=
  acc.empty_lines + acc.code_lines + acc.comment_lines + acc.docstring_lines

/-- `classifyLine` increments exactly one of the four category counters. -/
theorem sumCat_classifyLine (acc : CodeAnalyzer.StatsAcc) (stripped : Str) :
    sumCat (CodeAnalyzer.classifyLine acc stripped) = sumCat acc + 1 := by
  unfold CodeAnalyzer.classifyLine sumCat
  split_ifs <;> simp <;> omega

/-- `lenStep` leaves the category counters unchanged. -/
theorem sumCat_lenStep (acc : CodeAnalyzer.StatsAcc) (line : Str) :
    sumCat (CodeAnalyzer.lenStep acc line) = sumCat acc := by
  unfold CodeAnalyzer.lenStep
  split_ifs <;> rfl

/-- Updating the docstring bookkeeping fields leaves the category counters
unchanged. -/
theorem sumCat_setQuotes (a : CodeAnalyzer.StatsAcc) (dq : Nat) (b : Bool) :
    sumCat { a with docstring_quotes := dq, in_docstring := b } = sumCat a := rfl

/-- Each line of input increments the four category counters by at most one
(a line that is only a triple-quote delimiter increments none). -/
theorem sumCat_statsStep (acc : CodeAnalyzer.StatsAcc) (line : Str) :
    sumCat (CodeAnalyzer.statsStep acc line) ≤ sumCat acc + 1 := by
  unfold CodeAnalyzer.statsStep
  by_cases h1 : (containsSub CodeAnalyzer.tripleDQ line ||
      containsSub CodeAnalyzer.tripleSQ line) = true
  · rw [if_pos h1]
    by_cases h2 : (stripStr ((stripStr line).drop 3)).isEmpty = true
    · rw [if_pos h2, sumCat_setQuotes, sumCat_lenStep]
      omega
    · rw [if_neg h2, sumCat_classifyLine, sumCat_setQuotes, sumCat_lenStep]
  · rw [if_neg h1, sumCat_classifyLine, sumCat_lenStep]

/-- The fold of `statsStep` over the lines grows the category counters by at
most the number of lines. -/
theorem sumCat_foldl (lines : List Str) :
    ∀ acc : CodeAnalyzer.StatsAcc,
      sumCat (lines.foldl CodeAnalyzer.statsStep acc) ≤ sumCat acc + lines.length := by
  induction lines with
  | nil => intro acc; simp
  | cons l ls ih =>
    intro acc
    have h1 := sumCat_statsStep acc l
    have h2 := ih (CodeAnalyzer.statsStep acc l)
    simp only [List.foldl_cons, List.length_cons]
    omega

/-- C10: in `_get_code_stats`, each line is counted in at most one of the
four categories, so their sum never exceeds `total_lines`; a line that is
only a triple-quote delimiter is counted in none, so the inequality can be
strict (witnessed by the one-line input consisting of a `"""` delimiter). -/
theorem C10_stats_categories_bounded :
    (∀ code : Str,
      (CodeAnalyzer._get_code_stats code).empty_lines +
        (CodeAnalyzer._get_code_stats code).code_lines +
        (CodeAnalyzer._get_code_stats code).comment_lines +
        (CodeAnalyzer._get_code_stats code).docstring_lines ≤
      (CodeAnalyzer._get_code_stats code).total_lines) ∧
    (CodeAnalyzer._get_code_stats "\"\"\"".data).empty_lines +
        (CodeAnalyzer._get_code_stats "\"\"\"".data).code_lines +
        (CodeAnalyzer._get_code_stats "\"\"\"".data).comment_lines +
        (CodeAnalyzer._get_code_stats "\"\"\"".data).docstring_lines <
      (CodeAnalyzer._get_code_stats "\"\"\"".data).total_lines := by
  constructor
  · intro code
    have h := sumCat_foldl (splitOnChar '\n' code) ⟨0, 0, 0, 0, 0, 0, 0, 0, 0, false, 0⟩
    simp only [CodeAnalyzer._get_code_stats, sumCat] at h ⊢
    omega
  · decide

/-- If a pattern does not occur in `c :: cs`, it does not occur in `cs`. -/
theorem containsSub_cons_false (p : Str) (c : Char) (cs : Str)
    (h : containsSub p (c :: cs) = false) : containsSub p cs = false := by
  unfold containsSub at h ⊢
  rw [List.any_eq_false] at h ⊢
  intro i hi
  have hmem : i + 1 ∈ List.range ((c :: cs).length + 1) := by
    simp only [List.mem_range, List.length_cons] at hi ⊢
    omega
  have := h (i + 1) hmem
  simpa using this

/-- A prefix occurs as a substring. -/
theorem containsSub_of_isPrefixOf (p s : Str) (h : p.isPrefixOf s = true) :
    containsSub p s = true := by
  unfold containsSub
  rw [List.any_eq_true]
  exact ⟨0, by simp, by simpa using h⟩

/-- If the closing fence is a prefix of `cs ++ '\n' :: rest`, it is already a
prefix of `cs` (a backtick is not a newline). -/
theorem gramPrefix (cs rest : Str)
    (h : "```".data.isPrefixOf (cs ++ '\n' :: rest) = true) :
    "```".data.isPrefixOf cs = true := by
  match cs with
  | [] => simp [List.isPrefixOf] at h
  | [a] => simp [List.isPrefixOf] at h
  | [a, b] => simp [List.isPrefixOf] at h
  | a :: b :: c :: tl =>
    simp [List.isPrefixOf] at h ⊢
    exact ⟨h.1, h.2.1, h.2.2⟩

/-- If `C` contains no fence, `(newline + fence)` is not a prefix of
`C ++ (newline + fence)` unless `C` is empty. -/
theorem nlClose_not_prefix (c : Char) (cs : Str)
    (hC : containsSub "```".data (c :: cs) = false) :
    "\n```".data.isPrefixOf (c :: cs ++ "\n```".data) = false := by
  cases hp : "\n```".data.isPrefixOf (c :: cs ++ "\n```".data) with
  | false => rfl
  | true =>
    exfalso
    have e : ("\n```".data : Str) = '\n' :: "```".data := rfl
    rw [e, List.cons_append, List.isPrefixOf] at hp
    have h2 : "```".data.isPrefixOf (cs ++ "\n```".data) = true := by
      cases hb : ('\n' == c) <;> rw [hb] at hp <;> simpa using hp
    have h3 : "```".data.isPrefixOf cs = true := gramPrefix cs "```".data h2
    have h4 : containsSub "```".data cs = true :=
      containsSub_of_isPrefixOf _ _ h3
    rw [containsSub_cons_false _ _ _ hC] at h4
    exact Bool.false_ne_true h4

/-- If `C` contains no fence, the fence is not a prefix of
`C ++ (newline + fence)` for nonempty `C`. -/
theorem close_not_prefix (c : Char) (cs : Str)
    (hC : containsSub "```".data (c :: cs) = false) :
    "```".data.isPrefixOf (c :: cs ++ "\n```".data) = false := by
  cases hp : "```".data.isPrefixOf (c :: cs ++ "\n```".data) with
  | false => rfl
  | true =>
    exfalso
    have h3 : "```".data.isPrefixOf (c :: cs) = true := by
      have := gramPrefix (c :: cs) "```".data (by simpa using hp)
      exact this
    have h4 := containsSub_of_isPrefixOf _ _ h3
    rw [hC] at h4
    exact Bool.false_ne_true h4

/-- A word character is neither a newline nor a backtick. -/
theorem wordChar_ne (a : Char) (ha : pyIsWordChar a = true) :
    ('\n' == a) = false ∧ ('`' == a) = false := by
  constructor
  · cases h : ('\n' == a) with
    | false => rfl
    | true =>
      exfalso
      rw [beq_iff_eq] at h
      rw [← h] at ha
      exact absurd ha (by decide)
  · cases h : ('`' == a) with
    | false => rfl
    | true =>
      exfalso
      rw [beq_iff_eq] at h
      rw [← h] at ha
      exact absurd ha (by decide)

/-- Helper for C3: a `? ` line anywhere in the diff is skipped without any
effect on the accumulated block, whatever that block currently is. -/
theorem diffSummaryGo_skips_question (q : Str) (hq : "? ".data.isPrefixOf q = true) :
    ∀ (d1 block d2 : List Str),
      CodeAnalyzer.diffSummaryGo block (d1 ++ q :: d2) =
        CodeAnalyzer.diffSummaryGo block (d1 ++ d2) := by
  intro d1
  induction d1 with
  | nil =>
    intro block d2
    simp only [List.nil_append]
    rw [CodeAnalyzer.diffSummaryGo]
    rw [if_pos hq]
  | cons l d1' ih =>
    intro block d2
    simp only [List.cons_append]
    rw [CodeAnalyzer.diffSummaryGo, CodeAnalyzer.diffSummaryGo]
    simp only [ih]

/-- C3 (amended): `? ` lines are skipped without flushing: removing any `? `
line from the input leaves the summary unchanged, so `+`/`-` lines separated
only by a `? ` line belong to one and the same change block.  (Context lines
and the end of input do flush, as the original claim states.) -/
theorem C3_question_line_does_not_flush (d1 d2 : List Str) (q : Str)
    (hq : "? ".data.isPrefixOf q = true) :
    CodeAnalyzer._generate_diff_summary (d1 ++ q :: d2) =
      CodeAnalyzer._generate_diff_summary (d1 ++ d2) := by
  unfold CodeAnalyzer._generate_diff_summary
  exact diffSummaryGo_skips_question q hq d1 [] d2

/-- C3 witness: removing the `? ^` line between two additions leaves the
summary unchanged (both runs summarize one two-line block). -/
theorem C3_question_line_witness :
    ("? ".data.isPrefixOf "? ^".data = true) ∧
      CodeAnalyzer._generate_diff_summary ["+ a".data, "? ^".data, "+ b".data] =
        CodeAnalyzer._generate_diff_summary ["+ a".data, "+ b".data] :=
  ⟨by decide,
    C3_question_line_does_not_flush ["+ a".data] ["+ b".data] "? ^".data (by decide)⟩

/-- C3 counterexample: on `['+ a', '? ^', '+ b']` the summarizer produces a
single summary for one two-line block (`Modificate 2 linee`); under the
claimed flush-on-`?` behavior the two additions would lie in two distinct
single-line blocks and be summarized separately. -/
theorem C3_single_block_across_question :
    CodeAnalyzer._generate_diff_summary ["+ a".data, "? ^".data, "+ b".data] =
      ["Modificate 2 linee"] := by decide

namespace ChatInterface

/-- The `python` indicator table of `_guess_language`
(src/components/chat_interface.py lines 202-222). -/
def python_indicators : List (Str × Nat) :=
  [("def ".data, 3), ("class ".data, 3), ("import ".data, 2), ("from ".data, 2),
   ("@".data, 1), ("if __name__".data, 3), (".py".data, 2), ("print(".data, 1),
   ("return ".data, 1), ("#".data, 1), ("self.".data, 2), ("elif ".data, 2),
   ("None".data, 1), ("True".data, 1), ("False".data, 1), ("try:".data, 2),
   ("except:".data, 2), ("with ".data, 2)]

/-- The `python` indicator table with the three case-sensitive entries
`None`, `True`, `False` removed (the variant of claim C9). -/
def python_indicators_nocaps : List (Str × Nat) :=
  [("def ".data, 3), ("class ".data, 3), ("import ".data, 2), ("from ".data, 2),
   ("@".data, 1), ("if __name__".data, 3), (".py".data, 2), ("print(".data, 1),
   ("return ".data, 1), ("#".data, 1), ("self.".data, 2), ("elif ".data, 2),
   ("try:".data, 2), ("except:".data, 2), ("with ".data, 2)]

/-- The `javascript` indicator table. -/
def javascript_indicators : List (Str × Nat) :=
  [("function ".data, 3), ("const ".data, 2), ("let ".data, 2), ("var ".data, 2),
   ("=>".data, 3), ("document.".data, 3), ("window.".data, 3), (".js".data, 2),
   ("console.log(".data, 2), ("===".data, 2), ("!==".data, 2), ("undefined".data, 2)]

/-- The `html` indicator table. -/
def html_indicators : List (Str × Nat) :=
  [("<html".data, 3), ("<body".data, 2), ("<div".data, 2), ("<p>".data, 1),
   ("<script".data, 2), ("<head".data, 2), ("<style".data, 2), ("<link".data, 1),
   ("<meta".data, 1), ("</div>".data, 2)]

/-- The `css` indicator table. -/
def css_indicators : List (Str × Nat) :=
  [("\x7b".data, 1), ("margin:".data, 2), ("padding:".data, 2), ("color:".data, 2),
   ("background:".data, 2), ("font-".data, 2), ("border:".data, 2),
   ("@media".data, 3), ("#".data, 1), (".class".data, 1), ("px;".data, 2),
   ("em;".data, 2), ("rem;".data, 2)]

/-- The `sql` indicator table. -/
def sql_indicators : List (Str × Nat) :=
  [("select ".data, 3), ("from ".data, 2), ("where ".data, 2),
   ("insert into".data, 3), ("update ".data, 2), ("delete from".data, 3),
   ("create table".data, 3), ("join ".data, 2), ("group by".data, 2),
   ("order by".data, 2)]

/-- Score of one language: sum of `occurrences * weight` over its
indicators (the inner loop of `_guess_language`). -/
def scoreOf (inds : List (Str × Nat)) (code : Str) : Nat :=
  inds.foldl (fun acc iw => acc + countOcc iw.1 code * iw.2) 0

/-- Python `max(items, key=...)`, which keeps the first maximal entry:
worker carrying the current best. -/
def firstArgmaxGo (l : String) (v : Nat) : List (String × Nat) → String
  | [] => l
  | (l', v') :: rest =>
    if v' > v then firstArgmaxGo l' v' rest else firstArgmaxGo l v rest

/-- `max(scores.items(), key=lambda x: x[1])[0]`: the first language with
the maximal score, in dict insertion order. -/
def firstArgmax : List (String × Nat) → String
  | [] => "text"
  | (l, v) :: rest => firstArgmaxGo l v rest

/-- Body of `_guess_language` (src/components/chat_interface.py lines
197-306), parameterized by the python indicator table so that the claim-C9
variant is literally the same code over the shortened table.  Dicts are
modeled as association lists in insertion order (python, javascript, html,
css, sql). -/
def guessLanguageCore (pyInds : List (Str × Nat)) (code0 : Str) : String :=
  let code := lowerStr (stripStr code0)
  let scores0 : List (String × Nat) :=
    [("python", scoreOf pyInds code),
     ("javascript", scoreOf javascript_indicators code),
     ("html", scoreOf html_indicators code),
     ("css", scoreOf css_indicators code),
     ("sql", scoreOf sql_indicators code)]
  let scores :=
    if ((Models.alookup "python" scores0).getD 0 > 0 ∧ code.contains '\x7b') ∧
        pyInds.countP (fun iw => containsSub iw.1 code) ≥ 3 then
      scores0.map fun ls => if ls.1 == "python" then (ls.1, ls.2 + 2) else ls
    else scores0
  let max_score := (scores.map Prod.snd).foldl max 0
  if max_score == 0 ∧
      ((containsSub "    ".data code || containsSub "\t".data code) &&
        (containsSub ":".data code || containsSub "def".data code ||
          containsSub "class".data code)) = true then
    "python"
  else if max_score > 0 then
    let candidates := (scores.filter fun ls => ls.2 == max_score).map Prod.fst
    if candidates.length > 1 ∧ "python" ∈ candidates ∧
        pyInds.any (fun iw => containsSub iw.1 code) = true then
      "python"
    else firstArgmax scores
  else "text"

/-- `_guess_language` (src/components/chat_interface.py lines 197-306). -/
def _guess_language (code : Str) : String := guessLanguageCore python_indicators code

/-- A code block extracted by `_detect_code_blocks`
(src/components/chat_interface.py lines 162-195). -/
structure CodeBlock where
  language : String
  code : Str
  original : Str
deriving DecidableEq

/-- Index of the leftmost occurrence of `pat` in `s`. -/
def findSubIdx (pat : Str) : Str → Option Nat
  | [] => if pat.isEmpty then some 0 else none
  | c :: cs =>
    if pat.isPrefixOf (c :: cs) then some 0
    else (findSubIdx pat cs).map (· + 1)

/-- Match of the pattern `(three backticks)(\w+)?\n(.*?)\n(three backticks)`
(DOTALL) anchored at the start of `s`: returns the optional language
capture, the code capture and the total match length.  The greedy `(\w+)?`
takes the maximal word run (shorter runs leave a word character where `\n`
is required, so backtracking can never succeed), and the lazy `(.*?)`
stops at the leftmost following occurrence of a newline and closing fence. -/
def tryMatchWL (s : Str) : Option (Option Str × Str × Nat) :=
  if "```".data.isPrefixOf s then
    let s1 := s.drop 3
    let w := s1.takeWhile pyIsWordChar
    let s2 := s1.drop w.length
    match s2.head? with
    | some '\n' =>
      let s3 := s2.drop 1
      match findSubIdx "\n```".data s3 with
      | some j => some (if w.isEmpty then none else some w, s3.take j,
          3 + w.length + 1 + j + 4)
      | none => none
    | _ => none
  else none

/-- A with-language match: the capture, the raw code and the matched span. -/
structure WLMatch where
  lang : Option Str
  codeRaw : Str
  original : Str
deriving DecidableEq

/-- `re.finditer` over the with-language pattern: scan left to right,
resuming after each match (fuel-totalized; `fuel ≥ s.length` suffices
because every step consumes at least one character). -/
def scanWLFuel : Nat → Str → List WLMatch
  | 0, _ => []
  | fuel + 1, s =>
    match s with
    | [] => []
    | c :: cs =>
      match tryMatchWL (c :: cs) with
      | some (lang, code, len) =>
        ⟨lang, code, (c :: cs).take len⟩ :: scanWLFuel fuel ((c :: cs).drop len)
      | none => scanWLFuel fuel cs

/-- All matches of the with-language pattern in `s`. -/
def scanWL (s : Str) : List WLMatch := scanWLFuel s.length s

/-- Search of the lazy `(.*?)\n?(three backticks)` tail of the no-language
pattern: the least offset at which the optional greedy `\n?` and the closing
fence match (`\n`-consuming alternative preferred), with the number of
characters the closer consumes. -/
def lazyFindClose : Str → Option (Nat × Nat)
  | [] => none
  | c :: cs =>
    if "\n```".data.isPrefixOf (c :: cs) then some (0, 4)
    else if "```".data.isPrefixOf (c :: cs) then some (0, 3)
    else (lazyFindClose cs).map fun kc => (kc.1 + 1, kc.2)

/-- Match of the pattern `(three backticks)\n?(.*?)\n?(three backticks)`
(DOTALL) anchored at the start of `s`: the greedy leading `\n?` alternative
that consumes the newline is explored fully before the one that does not. -/
def tryMatchWOL (s : Str) : Option (Str × Nat) :=
  if "```".data.isPrefixOf s then
    let s1 := s.drop 3
    if s1.head? == some '\n' then
      match lazyFindClose (s1.drop 1) with
      | some (k, cl) => some ((s1.drop 1).take k, 3 + 1 + k + cl)
      | none =>
        match lazyFindClose s1 with
        | some (k, cl) => some (s1.take k, 3 + k + cl)
        | none => none
    else
      match lazyFindClose s1 with
      | some (k, cl) => some (s1.take k, 3 + k + cl)
      | none => none
  else none

/-- A no-language match: the capture and the matched span. -/
structure WOLMatch where
  codeRaw : Str
  original : Str
deriving DecidableEq

/-- `re.finditer` over the no-language pattern (fuel-totalized as above). -/
def scanWOLFuel : Nat → Str → List WOLMatch
  | 0, _ => []
  | fuel + 1, s =>
    match s with
    | [] => []
    | c :: cs =>
      match tryMatchWOL (c :: cs) with
      | some (code, len) =>
        ⟨code, (c :: cs).take len⟩ :: scanWOLFuel fuel ((c :: cs).drop len)
      | none => scanWOLFuel fuel cs

/-- All matches of the no-language pattern in `s`. -/
def scanWOL (s : Str) : List WOLMatch := scanWOLFuel s.length s

/-- `_detect_code_blocks` (src/components/chat_interface.py lines 162-195):
first all with-language matches (`group(1) or 'text'` as the language, the
stripped `group(2)` as the code), then every no-language match whose span
was not already collected, with the language guessed from the stripped
capture. -/
def _detect_code_blocks (text : Str) : List CodeBlock :=
  let code_blocks : List CodeBlock := (scanWL text).map fun m =>
    { language := match m.lang with
        | some w => String.mk w
        | none => "text",
      code := stripStr m.codeRaw,
      original := m.original }
  (scanWOL text).foldl
    (fun blocks m =>
      if blocks.any fun block => block.original == m.original then blocks
      else
        blocks ++ [{ language := _guess_language (stripStr m.codeRaw),
                     code := stripStr m.codeRaw,
                     original := m.original }])
    code_blocks

/-- The claim-C9 variant of `_guess_language`: identical code over the
indicator table without the `None`/`True`/`False` entries. -/
def _guess_language_nocaps (code : Str) : String :=
  guessLanguageCore python_indicators_nocaps code

end ChatInterface

/-- The leftmost `(newline + fence)` in `C ++ (newline + fence)` is the final
one when `C` contains no fence. -/
theorem findSubIdx_close (C : Str) (hC : containsSub "```".data C = false) :
    ChatInterface.findSubIdx "\n```".data (C ++ "\n```".data) = some C.length := by
  induction C with
  | nil => rfl
  | cons c cs ih =>
    have hcs := containsSub_cons_false _ _ _ hC
    have hpre := nlClose_not_prefix c cs hC
    rw [List.cons_append] at hpre
    rw [List.cons_append]
    simp only [ChatInterface.findSubIdx, hpre, Bool.false_eq_true, if_false,
      ih hcs, Option.map_some', List.length_cons]

/-- The lazy close search over `C ++ (newline + fence)` finds the final
closer, consuming its newline, when `C` contains no fence. -/
theorem lazyFindClose_tail (C : Str) (hC : containsSub "```".data C = false) :
    ChatInterface.lazyFindClose (C ++ "\n```".data) = some (C.length, 4) := by
  induction C with
  | nil => rfl
  | cons c cs ih =>
    have hcs := containsSub_cons_false _ _ _ hC
    have h1 := nlClose_not_prefix c cs hC
    have h2 := close_not_prefix c cs hC
    rw [List.cons_append] at h1 h2
    rw [List.cons_append]
    simp only [ChatInterface.lazyFindClose, h1, h2, Bool.false_eq_true, if_false,
      ih hcs, Option.map_some', List.length_cons]

/-- A character that opens neither closer form is skipped by the lazy close
search, shifting the offset by one. -/
theorem lazyFindClose_cons_skip (c : Char) (cs : Str)
    (h1 : "\n```".data.isPrefixOf (c :: cs) = false)
    (h2 : "```".data.isPrefixOf (c :: cs) = false) :
    ChatInterface.lazyFindClose (c :: cs) =
      (ChatInterface.lazyFindClose cs).map fun kc => (kc.1 + 1, kc.2) := by
  simp only [ChatInterface.lazyFindClose, h1, h2, Bool.false_eq_true, if_false]

/-- The lazy close search over the whole fenced body
`L ++ newline ++ C ++ (newline + fence)` finds the final closer when `L` is
all word characters and `C` contains no fence. -/
theorem lazyFindClose_body (L C : Str) (hw : ∀ c ∈ L, pyIsWordChar c = true)
    (hC : containsSub "```".data C = false) :
    ChatInterface.lazyFindClose (L ++ '\n' :: (C ++ "\n```".data)) =
      some (L.length + 1 + C.length, 4) := by
  induction L with
  | nil =>
    rw [List.nil_append]
    have h1 : "\n```".data.isPrefixOf ('\n' :: (C ++ "\n```".data)) = false := by
      cases hp : "\n```".data.isPrefixOf ('\n' :: (C ++ "\n```".data)) with
      | false => rfl
      | true =>
        exfalso
        have e : ("\n```".data : Str) = '\n' :: "```".data := rfl
        rw [e, List.isPrefixOf_cons₂] at hp
        have h2 : "```".data.isPrefixOf (C ++ "\n```".data) = true := by
          simp only [beq_self_eq_true, Bool.true_and] at hp
          exact hp
        have h3 := gramPrefix C "```".data h2
        have h4 := containsSub_of_isPrefixOf _ _ h3
        rw [hC] at h4
        exact Bool.false_ne_true h4
    have h2 : "```".data.isPrefixOf ('\n' :: (C ++ "\n```".data)) = false := by
      have e : ("```".data : Str) = '`' :: "``".data := rfl
      rw [e, List.isPrefixOf_cons₂]
      rfl
    rw [lazyFindClose_cons_skip '\n' (C ++ "\n```".data) h1 h2,
      lazyFindClose_tail C hC]
    simp only [Option.map_some', Option.some.injEq, Prod.mk.injEq, List.length_nil]
    refine ⟨by omega, by trivial⟩
  | cons a L' ih =>
    have ha := hw a (List.mem_cons_self a L')
    have hw' : ∀ c ∈ L', pyIsWordChar c = true :=
      fun c hc => hw c (List.mem_cons_of_mem a hc)
    have hne := wordChar_ne a ha
    have h1 : "\n```".data.isPrefixOf (a :: (L' ++ '\n' :: (C ++ "\n```".data))) = false := by
      have e : ("\n```".data : Str) = '\n' :: "```".data := rfl
      rw [e, List.isPrefixOf_cons₂, hne.1, Bool.false_and]
    have h2 : "```".data.isPrefixOf (a :: (L' ++ '\n' :: (C ++ "\n```".data))) = false := by
      have e : ("```".data : Str) = '`' :: "``".data := rfl
      rw [e, List.isPrefixOf_cons₂, hne.2, Bool.false_and]
    rw [List.cons_append,
      lazyFindClose_cons_skip a (L' ++ '\n' :: (C ++ "\n```".data)) h1 h2,
      ih hw']
    simp only [Option.map_some', Option.some.injEq, Prod.mk.injEq, List.length_cons]
    refine ⟨by omega, by trivial⟩

/-- `takeWhile` over all-word characters followed by a newline takes exactly
the word part. -/
theorem takeWhile_word_append_nl (L X : Str) (hw : ∀ c ∈ L, pyIsWordChar c = true) :
    (L ++ '\n' :: X).takeWhile pyIsWordChar = L := by
  induction L with
  | nil =>
    simp only [List.nil_append, List.takeWhile_cons]
    rw [if_neg (by decide)]
  | cons a L' ih =>
    have ha := hw a (List.mem_cons_self a L')
    have hw' : ∀ c ∈ L', pyIsWordChar c = true :=
      fun c hc => hw c (List.mem_cons_of_mem a hc)
    simp [List.takeWhile_cons, ha, ih hw']

/-- The with-language pattern matches the whole single-fence text, capturing
the language tag and the enclosed code. -/
theorem tryMatchWL_fence (L C : Str) (hL : L.isEmpty = false)
    (hw : ∀ c ∈ L, pyIsWordChar c = true)
    (hC : containsSub "```".data C = false) :
    ChatInterface.tryMatchWL ("```".data ++ (L ++ '\n' :: (C ++ "\n```".data))) =
      some (some L, C, 3 + L.length + 1 + C.length + 4) := by
  have hpre : "```".data.isPrefixOf
      ("```".data ++ (L ++ '\n' :: (C ++ "\n```".data))) = true := by
    rw [List.isPrefixOf_iff_prefix]
    exact List.prefix_append _ _
  have hdrop3 : ("```".data ++ (L ++ '\n' :: (C ++ "\n```".data))).drop 3 =
      L ++ '\n' :: (C ++ "\n```".data) :=
    List.drop_left' (by rfl)
  have htw : (L ++ '\n' :: (C ++ "\n```".data)).takeWhile pyIsWordChar = L :=
    takeWhile_word_append_nl L _ hw
  have hdropL : (L ++ '\n' :: (C ++ "\n```".data)).drop L.length =
      '\n' :: (C ++ "\n```".data) := List.drop_left _ _
  simp only [ChatInterface.tryMatchWL, hpre, if_true, hdrop3, htw, hdropL,
    List.head?_cons, List.drop_succ_cons, List.drop_zero,
    findSubIdx_close C hC, hL, Bool.false_eq_true, if_false,
    List.take_left]

/-- The no-language pattern also matches the whole single-fence text: the
leading `\n?` cannot consume (the tag starts with a word character), and the
lazy close search stops only at the final closer, so the capture is the tag
line plus the code. -/
theorem tryMatchWOL_fence (L C : Str) (hL : L ≠ [])
    (hw : ∀ c ∈ L, pyIsWordChar c = true)
    (hC : containsSub "```".data C = false) :
    ChatInterface.tryMatchWOL ("```".data ++ (L ++ '\n' :: (C ++ "\n```".data))) =
      some (L ++ '\n' :: C, 3 + (L.length + 1 + C.length) + 4) := by
  have hpre : "```".data.isPrefixOf
      ("```".data ++ (L ++ '\n' :: (C ++ "\n```".data))) = true := by
    rw [List.isPrefixOf_iff_prefix]
    exact List.prefix_append _ _
  have hdrop3 : ("```".data ++ (L ++ '\n' :: (C ++ "\n```".data))).drop 3 =
      L ++ '\n' :: (C ++ "\n```".data) :=
    List.drop_left' (by rfl)
  cases L with
  | nil => exact absurd rfl hL
  | cons a L' =>
    have ha := hw a (List.mem_cons_self a L')
    have hane : (a == '\n') = false := by
      cases h : (a == '\n') with
      | false => rfl
      | true =>
        exfalso
        rw [beq_iff_eq] at h
        rw [h] at ha
        exact absurd ha (by decide)
    have hlz := lazyFindClose_body (a :: L') C hw hC
    have hhd : (((a :: L') ++ '\n' :: (C ++ "\n```".data)).head? ==
        some '\n') = false := by
      rw [List.cons_append, List.head?_cons]
      show (a == '\n') = false
      exact hane
    have htake : ((a :: L') ++ '\n' :: (C ++ "\n```".data)).take
        ((a :: L').length + 1 + C.length) = (a :: L') ++ '\n' :: C := by
      have e : (a :: L') ++ '\n' :: (C ++ "\n```".data) =
          ((a :: L') ++ '\n' :: C) ++ "\n```".data := by
        simp [List.cons_append, List.append_assoc]
      rw [e]
      exact List.take_left' (by simp [List.length_append]; omega)
    simp only [ChatInterface.tryMatchWOL, hpre, if_true, hdrop3, hhd,
      Bool.false_eq_true, if_false, hlz, htake]

/-- The scanners return nothing on an exhausted input. -/
theorem scanWLFuel_nil (fuel : Nat) : ChatInterface.scanWLFuel fuel [] = [] := by
  cases fuel <;> rfl

/-- Unfolding of the with-language scanner on a successful head match. -/
theorem scanWLFuel_cons_some (fuel : Nat) (c : Char) (cs : Str) (lang : Option Str)
    (code : Str) (len : Nat)
    (h : ChatInterface.tryMatchWL (c :: cs) = some (lang, code, len)) :
    ChatInterface.scanWLFuel (fuel + 1) (c :: cs) =
      ⟨lang, code, (c :: cs).take len⟩ ::
        ChatInterface.scanWLFuel fuel ((c :: cs).drop len) := by
  simp only [ChatInterface.scanWLFuel, h]

/-- The no-language scanner returns nothing on an exhausted input. -/
theorem scanWOLFuel_nil (fuel : Nat) : ChatInterface.scanWOLFuel fuel [] = [] := by
  cases fuel <;> rfl

/-- Unfolding of the no-language scanner on a successful head match. -/
theorem scanWOLFuel_cons_some (fuel : Nat) (c : Char) (cs : Str)
    (code : Str) (len : Nat)
    (h : ChatInterface.tryMatchWOL (c :: cs) = some (code, len)) :
    ChatInterface.scanWOLFuel (fuel + 1) (c :: cs) =
      ⟨code, (c :: cs).take len⟩ ::
        ChatInterface.scanWOLFuel fuel ((c :: cs).drop len) := by
  simp only [ChatInterface.scanWOLFuel, h]

/-- The with-language pass over a single-fence text yields exactly one match,
spanning the whole text. -/
theorem scanWL_fence (L C : Str) (hL : L ≠ [])
    (hw : ∀ c ∈ L, pyIsWordChar c = true)
    (hC : containsSub "```".data C = false) :
    ChatInterface.scanWL ("```".data ++ (L ++ '\n' :: (C ++ "\n```".data))) =
      [⟨some L, C, "```".data ++ (L ++ '\n' :: (C ++ "\n```".data))⟩] := by
  have hLe : L.isEmpty = false := by
    cases L with
    | nil => exact absurd rfl hL
    | cons a l => rfl
  have hm : ChatInterface.tryMatchWL
      ('\x60' :: ('\x60' :: ('\x60' :: (L ++ '\n' :: (C ++ "\n```".data))))) =
      some (some L, C, 3 + L.length + 1 + C.length + 4) :=
    tryMatchWL_fence L C hLe hw hC
  show ChatInterface.scanWLFuel
      ('\x60' :: ('\x60' :: ('\x60' :: (L ++ '\n' :: (C ++ "\n```".data))))).length
      ('\x60' :: ('\x60' :: ('\x60' :: (L ++ '\n' :: (C ++ "\n```".data))))) = _
  rw [List.length_cons, scanWLFuel_cons_some _ _ _ _ _ _ hm]
  rw [List.take_of_length_le (by simp [List.length_append]; omega)]
  rw [List.drop_eq_nil_of_le (by simp [List.length_append]; omega)]
  rw [scanWLFuel_nil]
  exact rfl

/-- The no-language pass over a single-fence text yields exactly one match,
spanning the whole text (so it is deduplicated against the first pass). -/
theorem scanWOL_fence (L C : Str) (hL : L ≠ [])
    (hw : ∀ c ∈ L, pyIsWordChar c = true)
    (hC : containsSub "```".data C = false) :
    ChatInterface.scanWOL ("```".data ++ (L ++ '\n' :: (C ++ "\n```".data))) =
      [⟨L ++ '\n' :: C, "```".data ++ (L ++ '\n' :: (C ++ "\n```".data))⟩] := by
  have hm : ChatInterface.tryMatchWOL
      ('\x60' :: ('\x60' :: ('\x60' :: (L ++ '\n' :: (C ++ "\n```".data))))) =
      some (L ++ '\n' :: C, 3 + (L.length + 1 + C.length) + 4) :=
    tryMatchWOL_fence L C hL hw hC
  show ChatInterface.scanWOLFuel
      ('\x60' :: ('\x60' :: ('\x60' :: (L ++ '\n' :: (C ++ "\n```".data))))).length
      ('\x60' :: ('\x60' :: ('\x60' :: (L ++ '\n' :: (C ++ "\n```".data))))) = _
  rw [List.length_cons, scanWOLFuel_cons_some _ _ _ _ _ hm]
  rw [List.take_of_length_le (by simp [List.length_append]; omega)]
  rw [List.drop_eq_nil_of_le (by simp [List.length_append]; omega)]
  rw [scanWOLFuel_nil]
  exact rfl

/-- C4 (amended): on a snippet that is exactly one fenced block with a
nonempty word-character language tag and no fence inside the code,
`_detect_code_blocks` returns exactly one block whose language is the tag
and whose code is the enclosed code with leading/trailing whitespace
STRIPPED (verbatim only when the code neither starts nor ends with
whitespace); the no-language pass rediscovers the same span and is
deduplicated. -/
theorem C4_detect_single_fence (L C : Str) (hL : L ≠ [])
    (hw : ∀ c ∈ L, pyIsWordChar c = true)
    (hC : containsSub "```".data C = false) :
    ChatInterface._detect_code_blocks
        ("```".data ++ (L ++ '\n' :: (C ++ "\n```".data))) =
      [⟨String.mk L, stripStr C,
        "```".data ++ (L ++ '\n' :: (C ++ "\n```".data))⟩] := by
  unfold ChatInterface._detect_code_blocks
  rw [scanWL_fence L C hL hw hC, scanWOL_fence L C hL hw hC]
  simp only [List.map_cons, List.map_nil, List.foldl_cons, List.foldl_nil,
    List.any_cons, List.any_nil, beq_self_eq_true, Bool.or_false, if_true]

/-- C4 witness: the theorem applied to the tag `py` and the code
`print(1)`. -/
theorem C4_detect_single_fence_witness :
    ("py".data ≠ ([] : Str)) ∧
      (∀ c ∈ "py".data, pyIsWordChar c = true) ∧
      containsSub "```".data "print(1)".data = false ∧
      ChatInterface._detect_code_blocks "```py\nprint(1)\n```".data =
        [⟨"py", "print(1)".data, "```py\nprint(1)\n```".data⟩] :=
  ⟨by decide, by decide, by decide,
    C4_detect_single_fence "py".data "print(1)".data (by decide) (by decide)
      (by decide)⟩

/-- C4 counterexample: with enclosed code ` x` (leading space), the detected
block's code is the stripped `x`, not the enclosed code verbatim. -/
theorem C4_code_is_stripped_not_verbatim :
    (ChatInterface._detect_code_blocks "```py\n x\n```".data).map
        ChatInterface.CodeBlock.code = ["x".data] ∧
      ¬ (" x".data = "x".data) := by
  constructor
  · decide
  · decide

/-- `Char.ofNat` at a scalar value below the surrogate range reads back to
the same code point. -/
theorem toNat_char_ofNat {n : Nat} (h : n < 55296) : (Char.ofNat n).toNat = n := by
  rw [Char.ofNat, dif_pos (Or.inl h)]
  rfl

/-- `Char.toLower` never produces a code point in the ASCII uppercase range. -/
theorem toLower_not_ascii_upper (c : Char) :
    (Char.toLower c).toNat < 65 ∨ 90 < (Char.toLower c).toNat := by
  simp only [Char.toLower]
  split
  · next h =>
    rw [toNat_char_ofNat (by omega)]
    omega
  · next h =>
    omega

/-- Every character of a lowered string avoids the ASCII uppercase range. -/
theorem mem_lowerStr_not_upper (s : Str) (d : Char) (hd : d ∈ lowerStr s) :
    d.toNat < 65 ∨ 90 < d.toNat := by
  rcases List.mem_map.1 hd with ⟨c, _, rfl⟩
  exact toLower_not_ascii_upper c

/-- A substring containing a character absent from `s` never occurs in `s`. -/
theorem containsSub_eq_false_of_missing (sub s : Str) (c : Char) (hc : c ∈ sub)
    (hs : ∀ d ∈ s, d ≠ c) : containsSub sub s = false := by
  unfold containsSub
  rw [List.any_eq_false]
  intro i _
  rw [Bool.not_eq_true]
  cases hp : sub.isPrefixOf (s.drop i) with
  | false => rfl
  | true =>
    exfalso
    have hpre : sub <+: s.drop i := List.isPrefixOf_iff_prefix.1 hp
    have hmem : c ∈ s.drop i := hpre.subset hc
    exact hs c (List.drop_subset i s hmem) rfl

/-- `countOccAux` of a substring containing a character absent from `s` is
zero for every skip value. -/
theorem countOccAux_eq_zero_of_missing (sub : Str) (c : Char) (hc : c ∈ sub) :
    ∀ (s : Str) (skip : Nat), (∀ d ∈ s, d ≠ c) → countOccAux sub s skip = 0 := by
  intro s
  induction s with
  | nil => intro skip _; rfl
  | cons a tl ih =>
    intro skip hs
    match skip with
    | skip + 1 =>
      exact ih skip fun d hd => hs d (List.mem_cons_of_mem a hd)
    | 0 =>
      have hp : (!sub.isEmpty && sub.isPrefixOf (a :: tl)) = false := by
        cases hp : sub.isPrefixOf (a :: tl) with
        | false => simp
        | true =>
          exfalso
          have hpre : sub <+: a :: tl := List.isPrefixOf_iff_prefix.1 hp
          exact hs c (hpre.subset hc) rfl
      rw [countOccAux, hp]
      simp only [Bool.false_eq_true, if_false]
      exact ih 0 fun d hd => hs d (List.mem_cons_of_mem a hd)

/-- `str.count` of a substring containing a character absent from `s` is 0. -/
theorem countOcc_eq_zero_of_missing (sub s : Str) (c : Char) (hc : c ∈ sub)
    (hs : ∀ d ∈ s, d ≠ c) : countOcc sub s = 0 :=
  countOccAux_eq_zero_of_missing sub c hc s 0 hs

/-- Characters of a lowered string are never `N`, `T` or `F`. -/
theorem mem_lowerStr_ne_NTF (s : Str) (d : Char) (hd : d ∈ lowerStr s) :
    d ≠ 'N' ∧ d ≠ 'T' ∧ d ≠ 'F' := by
  have h := mem_lowerStr_not_upper s d hd
  refine ⟨?_, ?_, ?_⟩ <;> rintro rfl <;> revert h <;> decide

/-- C9: because `_guess_language` lowercases the snippet before scoring,
the case-sensitive indicators `None`, `True`, `False` contribute zero to
every score and to every membership test, so the function agrees everywhere
with the variant whose table omits them. -/
theorem C9_caps_indicators_never_score (code : Str) :
    ChatInterface._guess_language code = ChatInterface._guess_language_nocaps code := by
  have hN : ∀ d ∈ lowerStr (stripStr code), d ≠ 'N' :=
    fun d hd => (mem_lowerStr_ne_NTF _ d hd).1
  have hT : ∀ d ∈ lowerStr (stripStr code), d ≠ 'T' :=
    fun d hd => (mem_lowerStr_ne_NTF _ d hd).2.1
  have hF : ∀ d ∈ lowerStr (stripStr code), d ≠ 'F' :=
    fun d hd => (mem_lowerStr_ne_NTF _ d hd).2.2
  have hoN : countOcc "None".data (lowerStr (stripStr code)) = 0 :=
    countOcc_eq_zero_of_missing _ _ 'N' (by decide) hN
  have hoT : countOcc "True".data (lowerStr (stripStr code)) = 0 :=
    countOcc_eq_zero_of_missing _ _ 'T' (by decide) hT
  have hoF : countOcc "False".data (lowerStr (stripStr code)) = 0 :=
    countOcc_eq_zero_of_missing _ _ 'F' (by decide) hF
  have hcN : containsSub "None".data (lowerStr (stripStr code)) = false :=
    containsSub_eq_false_of_missing _ _ 'N' (by decide) hN
  have hcT : containsSub "True".data (lowerStr (stripStr code)) = false :=
    containsSub_eq_false_of_missing _ _ 'T' (by decide) hT
  have hcF : containsSub "False".data (lowerStr (stripStr code)) = false :=
    containsSub_eq_false_of_missing _ _ 'F' (by decide) hF
  have hscore : ChatInterface.scoreOf ChatInterface.python_indicators
        (lowerStr (stripStr code)) =
      ChatInterface.scoreOf ChatInterface.python_indicators_nocaps
        (lowerStr (stripStr code)) := by
    simp only [ChatInterface.scoreOf, ChatInterface.python_indicators,
      ChatInterface.python_indicators_nocaps, List.foldl_cons, List.foldl_nil]
    rw [hoN, hoT, hoF]
    omega
  have hcountP : (ChatInterface.python_indicators.countP
        fun iw => containsSub iw.1 (lowerStr (stripStr code))) =
      ChatInterface.python_indicators_nocaps.countP
        fun iw => containsSub iw.1 (lowerStr (stripStr code)) := by
    simp only [ChatInterface.python_indicators, ChatInterface.python_indicators_nocaps,
      List.countP_cons, List.countP_nil, hcN, hcT, hcF]
    simp
  have hany : (ChatInterface.python_indicators.any
        fun iw => containsSub iw.1 (lowerStr (stripStr code))) =
      ChatInterface.python_indicators_nocaps.any
        fun iw => containsSub iw.1 (lowerStr (stripStr code)) := by
    simp only [ChatInterface.python_indicators, ChatInterface.python_indicators_nocaps,
      List.any_cons, List.any_nil, hcN, hcT, hcF, Bool.false_or]
  simp only [ChatInterface._guess_language, ChatInterface._guess_language_nocaps,
    ChatInterface.guessLanguageCore]
  rw [hscore, hcountP, hany]

/-- C6: merging is monotonic under adding a category:
`merge_rule_sets(["code","data"])` contains `merge_rule_sets(["code"])` and
the mandatory set of `"data"`. -/
theorem C6_merge_rule_sets_monotone :
    Models.merge_rule_sets ["code"] ⊆ Models.merge_rule_sets ["code", "data"] ∧
      Models.mandatoryOf "data" ⊆ Models.merge_rule_sets ["code", "data"] := by
  constructor
  · decide
  · decide

/-- Helper for C8: comparing two identical line lists yields every line as a
two-space context line. -/
theorem differCompare_self (l : List Str) :
    CodeAnalyzer.differCompare l l = l.map (fun b => "  ".data ++ b) := by
  induction l with
  | nil => rfl
  | cons a as ih => simp [CodeAnalyzer.differCompare, ih]

/-- Helper for C8: the line-counting loop ignores context lines. -/
theorem changesLineStep_ctx (c : CodeAnalyzer.Changes) (b : Str) :
    CodeAnalyzer.changesLineStep c ("  ".data ++ b) = c := by
  have h1 : "+ ".data.isPrefixOf ("  ".data ++ b) = false := rfl
  have h2 : "- ".data.isPrefixOf ("  ".data ++ b) = false := rfl
  have h3 : "? ".data.isPrefixOf ("  ".data ++ b) = false := rfl
  simp [CodeAnalyzer.changesLineStep, h1, h2, h3]

/-- Helper for C8: folding the line counters over context lines only is the
identity. -/
theorem changes_fold_ctx (ls : List Str) (c : CodeAnalyzer.Changes) :
    (ls.map (fun b => "  ".data ++ b)).foldl CodeAnalyzer.changesLineStep c = c := by
  induction ls generalizing c with
  | nil => rfl
  | cons a as ih =>
    show List.foldl CodeAnalyzer.changesLineStep
      (CodeAnalyzer.changesLineStep c ("  ".data ++ a))
      (List.map (fun b => "  ".data ++ b) as) = c
    rw [changesLineStep_ctx]
    exact ih c

/-- Helper for C8: in a map with pairwise-distinct keys, every entry is
found by lookup with its own value. -/
theorem flookup_of_mem_nodup (l : List (String × Nat)) (kv : String × Nat)
    (hn : (l.map Prod.fst).Nodup) (hm : kv ∈ l) :
    CodeAnalyzer.flookup kv.1 l = some kv.2 := by
  induction l with
  | nil => cases hm
  | cons hd tl ih =>
    rw [List.map_cons, List.nodup_cons] at hn
    rcases List.mem_cons.mp hm with h | h
    · subst h
      simp [CodeAnalyzer.flookup]
    · have hne : (hd.1 == kv.1) = false :=
        beq_eq_false_iff_ne.mpr fun he => hn.1 (he ▸ List.mem_map_of_mem Prod.fst h)
      simp only [CodeAnalyzer.flookup, hne, Bool.false_eq_true, if_false]
      exact ih hn.2 h

/-- Helper for C8: the keys after a dict insertion are the old keys plus,
when new, the inserted key. -/
theorem mem_keys_dinsert (a k : String) (v : Nat) (l : List (String × Nat)) :
    a ∈ (CodeAnalyzer.dinsert k v l).map Prod.fst ↔
      a = k ∨ a ∈ l.map Prod.fst := by
  induction l with
  | nil => simp [CodeAnalyzer.dinsert]
  | cons hd tl ih =>
    by_cases h : hd.1 = k
    · subst h
      simp only [CodeAnalyzer.dinsert, beq_self_eq_true, if_true, List.map_cons,
        List.mem_cons]
      tauto
    · have hb : (hd.1 == k) = false := beq_eq_false_iff_ne.mpr h
      simp only [CodeAnalyzer.dinsert, hb, Bool.false_eq_true, if_false, List.map_cons,
        List.mem_cons, ih]
      tauto

/-- Helper for C8: dict insertion preserves distinctness of the keys. -/
theorem dinsert_nodup (k : String) (v : Nat) (l : List (String × Nat))
    (hn : (l.map Prod.fst).Nodup) :
    ((CodeAnalyzer.dinsert k v l).map Prod.fst).Nodup := by
  induction l with
  | nil => simp [CodeAnalyzer.dinsert]
  | cons hd tl ih =>
    rw [List.map_cons, List.nodup_cons] at hn
    by_cases h : hd.1 = k
    · subst h
      simp only [CodeAnalyzer.dinsert, beq_self_eq_true, if_true, List.map_cons,
        List.nodup_cons]
      exact ⟨hn.1, hn.2⟩
    · have hb : (hd.1 == k) = false := beq_eq_false_iff_ne.mpr h
      simp only [CodeAnalyzer.dinsert, hb, Bool.false_eq_true, if_false, List.map_cons,
        List.nodup_cons]
      refine ⟨fun hx => ?_, ih hn.2⟩
      rcases (mem_keys_dinsert hd.1 k v tl).mp hx with rfl | hx
      · exact h rfl
      · exact hn.1 hx

/-- Helper for C8: building a dict by repeated insertion keeps the keys
pairwise distinct. -/
theorem foldl_dinsert_nodup (ps : List (String × Nat)) (d : List (String × Nat))
    (hd : (d.map Prod.fst).Nodup) :
    ((ps.foldl (fun d kv => CodeAnalyzer.dinsert kv.1 kv.2 d) d).map Prod.fst).Nodup := by
  induction ps generalizing d with
  | nil => exact hd
  | cons p ps ih => exact ih _ (dinsert_nodup p.1 p.2 d hd)

/-- Helper for C8: the function map of a tree has pairwise-distinct keys. -/
theorem buildFuncDict_nodup (t : List CodeAnalyzer.PyAst) :
    ((CodeAnalyzer.buildFuncDict t).map Prod.fst).Nodup := by
  unfold CodeAnalyzer.buildFuncDict
  exact foldl_dinsert_nodup _ [] (by simp)

/-- Helper for C8: the breaking-change loop adds nothing when every previous
function is found with its own argument count. -/
theorem breaking_fold_id (d : List (String × Nat)) (l : List (String × Nat))
    (acc : List String)
    (h : ∀ kv ∈ l, CodeAnalyzer.flookup kv.1 d = some kv.2) :
    l.foldl (CodeAnalyzer.breakingStep d) acc = acc := by
  induction l generalizing acc with
  | nil => rfl
  | cons kv tl ih =>
    rw [List.foldl_cons]
    have hstep : CodeAnalyzer.breakingStep d acc kv = acc := by
      simp [CodeAnalyzer.breakingStep, h kv (List.mem_cons_self kv tl)]
    rw [hstep]
    exact ih acc (fun kv' hm => h kv' (List.mem_cons_of_mem kv hm))

/-- Helper for C8: comparing a snapshot against the character-for-character
identical current code yields zero added and removed lines and no breaking
changes. -/
theorem analyze_changes_self (parse : CodeAnalyzer.PyParse) (code : Str)
    (a : CodeAnalyzer.AnalysisResult) :
    (CodeAnalyzer._analyze_changes parse code ⟨code, a⟩).lines_added = 0 ∧
    (CodeAnalyzer._analyze_changes parse code ⟨code, a⟩).lines_removed = 0 ∧
    (CodeAnalyzer._analyze_changes parse code ⟨code, a⟩).breaking_changes = [] := by
  simp only [CodeAnalyzer._analyze_changes]
  rw [differCompare_self, changes_fold_ctx]
  cases hp : parse code with
  | none => simp
  | some t =>
    have hfl : ∀ kv ∈ CodeAnalyzer.buildFuncDict t,
        CodeAnalyzer.flookup kv.1 (CodeAnalyzer.buildFuncDict t) = some kv.2 :=
      fun kv hm => flookup_of_mem_nodup _ kv (buildFuncDict_nodup t) hm
    have hb := breaking_fold_id (CodeAnalyzer.buildFuncDict t)
      (CodeAnalyzer.buildFuncDict t) [] hfl
    simp [hb]

/-- Helper for C8: storing an analysis under a name makes it the one the
next lookup of that name finds. -/
theorem stateLookup_insert_self (k : Str) (v : CodeAnalyzer.PrevEntry)
    (l : List (Str × CodeAnalyzer.PrevEntry)) :
    CodeAnalyzer.stateLookup k (CodeAnalyzer.stateInsert k v l) = some v := by
  induction l with
  | nil => simp [CodeAnalyzer.stateInsert, CodeAnalyzer.stateLookup]
  | cons kv tl ih =>
    by_cases h : kv.1 = k
    · simp [CodeAnalyzer.stateInsert, CodeAnalyzer.stateLookup, h]
    · simp [CodeAnalyzer.stateInsert, CodeAnalyzer.stateLookup, h, ih]

/-- Helper for C8: a run with a named file stores exactly the pair of the
analyzed code and the returned result under that name. -/
theorem analyze_code_snd (parse : CodeAnalyzer.PyParse)
    (st : List (Str × CodeAnalyzer.PrevEntry)) (code nm : Str)
    (rules : Option (List String)) :
    (CodeAnalyzer.analyze_code parse st code (some ⟨some nm⟩) rules).2 =
      CodeAnalyzer.stateInsert nm
        ⟨code, (CodeAnalyzer.analyze_code parse st code (some ⟨some nm⟩) rules).1⟩ st := by
  cases hl : CodeAnalyzer.stateLookup nm st <;>
    simp [CodeAnalyzer.analyze_code, hl]

/-- Helper for C8: when the file name is cached, the returned result's
`version_changes` is the change analysis against the cached entry. -/
theorem analyze_code_version_changes (parse : CodeAnalyzer.PyParse)
    (st : List (Str × CodeAnalyzer.PrevEntry)) (code nm : Str)
    (rules : Option (List String)) (prev : CodeAnalyzer.PrevEntry)
    (hl : CodeAnalyzer.stateLookup nm st = some prev) :
    (CodeAnalyzer.analyze_code parse st code (some ⟨some nm⟩) rules).1.version_changes =
      some (CodeAnalyzer._analyze_changes parse code prev) := by
  simp [CodeAnalyzer.analyze_code, hl]

/-- C7: for every input on which `ast.parse` fails, `analyze_code` (a total
function here, so no exception escapes) returns a result whose complexity
dict is the all-zero three-key dict, whose functions, classes, imports and
dependencies are empty, and whose issues contain the syntax-error
message. -/
theorem C7_invalid_python_degrades_gracefully
    (parse : CodeAnalyzer.PyParse) (st : List (Str × CodeAnalyzer.PrevEntry))
    (code : Str) (file_info : Option CodeAnalyzer.FileInfo)
    (active_rules : Option (List String)) (h : parse code = none) :
    (CodeAnalyzer.analyze_code parse st code file_info active_rules).1.complexity =
      [("cognitive_load", 0), ("nesting_depth", 0), ("branches", 0)] ∧
    (CodeAnalyzer.analyze_code parse st code file_info active_rules).1.functions = [] ∧
    (CodeAnalyzer.analyze_code parse st code file_info active_rules).1.classes = [] ∧
    (CodeAnalyzer.analyze_code parse st code file_info active_rules).1.imports = [] ∧
    (CodeAnalyzer.analyze_code parse st code file_info active_rules).1.dependencies = [] ∧
    "Il codice contiene errori di sintassi" ∈
      (CodeAnalyzer.analyze_code parse st code file_info active_rules).1.issues := by
  rcases file_info with _ | ⟨_ | nm⟩
  · simp [CodeAnalyzer.analyze_code, CodeAnalyzer._analyze_complexity, h]
  · simp [CodeAnalyzer.analyze_code, CodeAnalyzer._analyze_complexity, h]
  · cases hl : CodeAnalyzer.stateLookup nm st <;>
      simp [CodeAnalyzer.analyze_code, CodeAnalyzer._analyze_complexity, h, hl]

/-- C7 witness: the concrete snippet `(` with the everywhere-failing parse
oracle, empty state, no file info and no rules. -/
theorem C7_invalid_python_witness :
    ((fun _ : Str => (none : Option (List CodeAnalyzer.PyAst))) "(".data = none) ∧
    ((CodeAnalyzer.analyze_code (fun _ => none) [] "(".data none none).1.complexity =
        [("cognitive_load", 0), ("nesting_depth", 0), ("branches", 0)] ∧
      (CodeAnalyzer.analyze_code (fun _ => none) [] "(".data none none).1.functions = [] ∧
      (CodeAnalyzer.analyze_code (fun _ => none) [] "(".data none none).1.classes = [] ∧
      (CodeAnalyzer.analyze_code (fun _ => none) [] "(".data none none).1.imports = [] ∧
      (CodeAnalyzer.analyze_code (fun _ => none) [] "(".data none none).1.dependencies = [] ∧
      "Il codice contiene errori di sintassi" ∈
        (CodeAnalyzer.analyze_code (fun _ => none) [] "(".data none none).1.issues) :=
  ⟨rfl, C7_invalid_python_degrades_gracefully (fun _ => none) [] "(".data none none rfl⟩

/-- C8: two runs of `analyze_code` on the same file name with
character-for-character identical code: the second run's `version_changes`
is present and reports zero added lines, zero removed lines and an empty
breaking-changes list. -/
theorem C8_identical_rerun_reports_no_changes
    (parse : CodeAnalyzer.PyParse) (st : List (Str × CodeAnalyzer.PrevEntry))
    (code nm : Str) (rules1 rules2 : Option (List String)) :
    ∃ vc,
      (CodeAnalyzer.analyze_code parse
          (CodeAnalyzer.analyze_code parse st code (some ⟨some nm⟩) rules1).2
          code (some ⟨some nm⟩) rules2).1.version_changes = some vc ∧
      vc.lines_added = 0 ∧ vc.lines_removed = 0 ∧ vc.breaking_changes = [] := by
  have hl : CodeAnalyzer.stateLookup nm
      (CodeAnalyzer.analyze_code parse st code (some ⟨some nm⟩) rules1).2 =
      some ⟨code, (CodeAnalyzer.analyze_code parse st code (some ⟨some nm⟩) rules1).1⟩ := by
    rw [analyze_code_snd]
    exact stateLookup_insert_self nm _ st
  refine ⟨_, analyze_code_version_changes parse _ code nm rules2 _ hl, ?_, ?_, ?_⟩
  · exact (analyze_changes_self parse code _).1
  · exact (analyze_changes_self parse code _).2.1
  · exact (analyze_changes_self parse code _).2.2
